import Mathlib

/-!
Verification of the trigger-evaluation / chain state machine core of the
repository (services/chainState and services/triggers).

The embedding is a direct shallow translation of the TypeScript source:

* `Map<string, T>` becomes an association list `List (String × T)` with
  JavaScript `Map` semantics (`set` updates in place or appends, `get`
  returns the first binding, `delete` removes the binding).
* `Set<string>` becomes a duplicate-free-by-construction `List String`.
* JavaScript numbers that the code uses (timestamps, delays, angles,
  thresholds) are modelled as `Int`; `a || d` defaulting on numbers treats
  `0` as falsy exactly as JS does, `a ?? d` is `Option.getD`.
* `Date.now()` is an explicit `now : Int` argument to each operation.
* `setTimeout` becomes a pending-timer entry `(key, fireAt, action)` in the
  state; a separate `fire...` function models the callback running, and a
  cancelled timer is simply one whose entry was removed before firing.
* `localStorage` (used only by persist/restore of the chain snapshot)
  becomes the `persisted : Option Snapshot` field of the chain state.
* broadcasting to the registered listener callbacks is modelled by
  appending to a notification log (`notified` for activation observers,
  `chainLog` for status-change listeners): one log entry = one broadcast
  to all currently subscribed observers.
-/

namespace Nystan

/-- Per-object lifecycle status of the chain state machine
(types/chain.ts `TriggerStatus`). -/
inductive TriggerStatus where
  | idle
  | armed
  | triggered
  | completed
deriving DecidableEq, Repr, Inhabited

/-- Discriminator of an arm condition (types/chain.ts `ChainCondition.type`). -/
inductive CondType where
  | afterTrigger
  | allOf
  | anyOf
  | timer
  | never
deriving DecidableEq, Repr, Inhabited

/-- Arm-condition descriptor (types/chain.ts `ChainCondition`). -/
structure ChainCondition where
  type : CondType
  triggerId : Option String := none
  triggerIds : Option (List String) := none
  delayMs : Option Int := none
deriving DecidableEq, Repr, Inhabited

/-- The twelve trigger kinds. -/
inductive TriggerKind where
  | gps
  | qr
  | shake
  | tilt
  | compass
  | touch
  | hold
  | timer
  | proximity
  | dice
  | spinner
  | ai
deriving DecidableEq, Repr, Inhabited

/-- The kind-specific parameter bag (`trigger.params`); only the fields the
modelled evaluators read are carried.  A missing field is `none`. -/
structure TriggerParams where
  code : Option String := none
  threshold : Option Int := none
  heading : Option Int := none
  tolerance : Option Int := none
  delay : Option Int := none
deriving DecidableEq, Repr, Inhabited

/-- `trigger` descriptor of a MediaObject: kind plus parameter bag. -/
structure TriggerDescriptor where
  type : TriggerKind
  params : TriggerParams := {}
deriving DecidableEq, Repr, Inhabited

/-- A triggerable object, restricted to the fields the chain state machine
and the activation coordinator read (types/chain.ts `ChainedMediaObject`). -/
structure ChainedMediaObject where
  id : String
  active : Bool := true
  trigger : TriggerDescriptor
  armCondition : Option ChainCondition := none
  repeatable : Option Bool := none
  resetTimeout : Option Int := none
deriving DecidableEq, Repr, Inhabited

/-- What a pending chain timer will do when it fires:
`statusChange s` is the `scheduleStatusChange` callback,
`armEval tid` is the `scheduleArmEvaluation` callback for object `tid`. -/
inductive TimerAction where
  | statusChange (status : TriggerStatus)
  | armEval (triggerId : String)
deriving DecidableEq, Repr, Inhabited

/-- A pending `setTimeout` of the chain state machine. -/
structure PendingTimer where
  fireAt : Int
  action : TimerAction
deriving DecidableEq, Repr, Inhabited

/-- The serialized session snapshot written to localStorage by
`persistSessionState`. -/
structure Snapshot where
  status : List (String × TriggerStatus)
  changedAt : List (String × Int)
  timestamp : Int
deriving DecidableEq, Repr, Inhabited

/-- `sessionState` of chainState (part_006): status map, status-change
timestamps, pending timers, the session object list, the localStorage
snapshot, and the log of status-change listener broadcasts. -/
structure ChainState where
  triggerStatus : List (String × TriggerStatus) := []
  statusChangedAt : List (String × Int) := []
  pendingTimers : List (String × PendingTimer) := []
  objects : List ChainedMediaObject := []
  persisted : Option Snapshot := none
  chainLog : List (String × TriggerStatus × Option TriggerStatus) := []
deriving DecidableEq, Repr, Inhabited

/-- `state` of the activation coordinator (services/triggers.ts):
active set, dismissed set, activation-observer broadcast log, pending
timer-trigger timeouts (object id ↦ fire time), and the coordinator's
auto-removal timeouts scheduled by `notifyActivation`. -/
structure CoordState where
  activeObjects : List String := []
  dismissedObjects : List String := []
  notified : List String := []
  timerTimeouts : List (String × Int) := []
  removalTimers : List (String × Int) := []
deriving DecidableEq, Repr, Inhabited

/-- The whole mutable module state: coordinator plus chain state machine. -/
structure Sys where
  coord : CoordState := {}
  chain : ChainState := {}
deriving DecidableEq, Repr, Inhabited

/-! ### JavaScript `Map` / `Set` as association lists -/

/-- JS `Map.get`. -/
def lookupA {α : Type} : List (String × α) → String → Option α
  | [], _ => none
  | (k, v) :: t, k0 => if k = k0 then some v else lookupA t k0

/-- JS `Map.set`: update the existing binding in place, else append. -/
def insertA {α : Type} : List (String × α) → String → α → List (String × α)
  | [], k0, v0 => [(k0, v0)]
  | (k, v) :: t, k0, v0 =>
      if k = k0 then (k0, v0) :: t else (k, v) :: insertA t k0 v0

/-- JS `Map.delete`. -/
def eraseA {α : Type} : List (String × α) → String → List (String × α)
  | [], _ => []
  | (k, v) :: t, k0 => if k = k0 then t else (k, v) :: eraseA t k0

/-- JS `Set.add`. -/
def insertS (l : List String) (k : String) : List String :=
  if k ∈ l then l else l ++ [k]

/-- JS `Set.delete`. -/
def removeS (l : List String) (k : String) : List String :=
  l.filter (fun x => x ≠ k)

/-- JS numeric defaulting `x || d` on an optional parameter: a missing value
or `0` (falsy) yields the default. -/
def jsOrNum (o : Option Int) (d : Int) : Int :=
  match o with
  | none => d
  | some v => if v = 0 then d else v

/-! ### Chain state machine (part_006, chainState) -/

/-- `getTriggerStatus`: `sessionState.triggerStatus.get(id) || 'idle'`. -/
def getTriggerStatus (st : ChainState) (triggerId : String) : TriggerStatus :=
  (lookupA st.triggerStatus triggerId).getD .idle

/-- `setTriggerStatus`: no-op if unchanged, else update the status map and
the change timestamp and broadcast to the status listeners. -/
def setTriggerStatus (st : ChainState) (now : Int) (triggerId : String)
    (status : TriggerStatus) : ChainState :=
  let previousStatus := lookupA st.triggerStatus triggerId
  if previousStatus = some status then st
  else
    { st with
      triggerStatus := insertA st.triggerStatus triggerId status
      statusChangedAt := insertA st.statusChangedAt triggerId now
      chainLog := st.chainLog ++ [(triggerId, status, previousStatus)] }

/-- `persistSessionState`: write the snapshot of both maps, stamped `now`,
to localStorage. -/
def persistSessionState (st : ChainState) (now : Int) : ChainState :=
  { st with
    persisted := some ⟨st.triggerStatus, st.statusChangedAt, now⟩ }

/-- `scheduleStatusChange`: cancel any pending timer keyed by this object id
and schedule a status change `delayMs` from now. -/
def scheduleStatusChange (st : ChainState) (triggerId : String)
    (newStatus : TriggerStatus) (delayMs : Int) (now : Int) : ChainState :=
  { st with
    pendingTimers :=
      insertA st.pendingTimers triggerId ⟨now + delayMs, .statusChange newStatus⟩ }

/-- `scheduleArmEvaluation`: schedule a deferred arm re-check keyed
`arm-<id>`, deduplicated — a no-op if one is already pending. -/
def scheduleArmEvaluation (st : ChainState) (triggerId : String)
    (delayMs : Int) (now : Int) : ChainState :=
  let key := "arm-" ++ triggerId
  if (lookupA st.pendingTimers key).isSome then st
  else
    { st with
      pendingTimers :=
        insertA st.pendingTimers key ⟨now + delayMs, .armEval triggerId⟩ }

/-- `evaluateArmCondition`: decide whether `trigger` should be armed; in the
delay-qualified `afterTrigger` case with the delay not elapsed it also
schedules a deferred re-evaluation (the returned state).  The source's
`_allTriggers` parameter is unused and omitted.  JS falsiness is kept:
a missing or empty `triggerId` short-circuits to `true`, a `delayMs` of 0 is
ignored. -/
def evaluateArmCondition (st : ChainState) (now : Int)
    (trigger : ChainedMediaObject) : Bool × ChainState :=
  match trigger.armCondition with
  | none => (true, st)
  | some c =>
    match c.type with
    | .never => (false, st)
    | .afterTrigger =>
      match c.triggerId with
      | none => (true, st)
      | some tid =>
        if tid = "" then (true, st)
        else
          let status := lookupA st.triggerStatus tid
          if status ≠ some .completed ∧ status ≠ some .triggered then (false, st)
          else
            match c.delayMs with
            | some d =>
              if d ≠ 0 then
                let changedAt := (lookupA st.statusChangedAt tid).getD 0
                if now - changedAt < d then
                  (false, scheduleArmEvaluation st trigger.id (d - (now - changedAt)) now)
                else (true, st)
              else (true, st)
            | none => (true, st)
    | .allOf =>
      ((c.triggerIds.getD []).all fun id =>
        let s := lookupA st.triggerStatus id
        s = some .completed ∨ s = some .triggered, st)
    | .anyOf =>
      ((c.triggerIds.getD []).any fun id =>
        let s := lookupA st.triggerStatus id
        s = some .completed ∨ s = some .triggered, st)
    | .timer => (true, st)

/-- One step of the `updateDependentTriggers` walk. -/
def dependentStep (now : Int) (changedTriggerId : String)
    (st : ChainState) (trigger : ChainedMediaObject) : ChainState :=
  if trigger.id = changedTriggerId then st
  else if getTriggerStatus st trigger.id ≠ .idle then st
  else
    let r := evaluateArmCondition st now trigger
    if r.1 then setTriggerStatus r.2 now trigger.id .armed else r.2

/-- `updateDependentTriggers`: arm every other currently-idle object whose
condition now evaluates true (single pass over `allTriggers`). -/
def updateDependentTriggers (st : ChainState) (now : Int)
    (changedTriggerId : String) (allTriggers : List ChainedMediaObject) :
    ChainState :=
  allTriggers.foldl (dependentStep now changedTriggerId) st

/-- `processTriggerActivation`: no-op returning false unless the object is
`armed`; otherwise transition to `triggered`, run the dependent sweep on the
post-transition state, persist, and return true.  A missing `allTriggers`
(JS `undefined`) falls back to the session object list. -/
def processTriggerActivation (st : ChainState) (now : Int)
    (trigger : ChainedMediaObject)
    (allTriggers : Option (List ChainedMediaObject)) : Bool × ChainState :=
  if getTriggerStatus st trigger.id ≠ .armed then (false, st)
  else
    let st1 := setTriggerStatus st now trigger.id .triggered
    let st2 := updateDependentTriggers st1 now trigger.id (allTriggers.getD st1.objects)
    (true, persistSessionState st2 now)

/-- `completeTrigger`: no-op unless `triggered`; a repeatable object is
scheduled back to `armed` after `resetTimeout ?? 30000` (non-positive
timeout applied immediately), a non-repeatable one becomes `completed`;
then the dependent sweep re-runs and the snapshot is persisted. -/
def completeTrigger (st : ChainState) (now : Int) (triggerId : String)
    (trigger : Option ChainedMediaObject)
    (allTriggers : Option (List ChainedMediaObject)) : ChainState :=
  if getTriggerStatus st triggerId ≠ .triggered then st
  else
    let obj : Option ChainedMediaObject :=
      match trigger with
      | some t => some t
      | none => st.objects.find? (fun o => o.id = triggerId)
    let triggers := allTriggers.getD st.objects
    let st1 :=
      match obj with
      | some o =>
        if o.repeatable = some true then
          let timeout := o.resetTimeout.getD 30000
          if timeout > 0 then scheduleStatusChange st triggerId .armed timeout now
          else setTriggerStatus st now triggerId .armed
        else setTriggerStatus st now triggerId .completed
      | none => setTriggerStatus st now triggerId .completed
    let st2 := updateDependentTriggers st1 now triggerId triggers
    persistSessionState st2 now

/-- The `setTimeout` callback of a pending chain timer firing at `now`.
A timer whose entry was cancelled (removed) never runs.  For an arm
re-evaluation, the stale map entry is deleted only after the re-check, as
in the source. -/
def fireChainTimer (st : ChainState) (now : Int) (key : String) : ChainState :=
  match lookupA st.pendingTimers key with
  | none => st
  | some t =>
    match t.action with
    | .statusChange s =>
      let st1 := setTriggerStatus st now key s
      let st2 := { st1 with pendingTimers := eraseA st1.pendingTimers key }
      persistSessionState st2 now
    | .armEval tid =>
      let st1 :=
        match st.objects.find? (fun o => o.id = tid) with
        | some trigger =>
          if getTriggerStatus st tid = TriggerStatus.idle then
            let r := evaluateArmCondition st now trigger
            if r.1 then
              persistSessionState (setTriggerStatus r.2 now tid .armed) now
            else r.2
          else st
        | none => st
      { st1 with pendingTimers := eraseA st1.pendingTimers ("arm-" ++ tid) }

/-- `clearAllTimers`. -/
def clearAllTimers (st : ChainState) : ChainState :=
  { st with pendingTimers := [] }

/-- `restoreSessionState`: restore both maps from the localStorage snapshot
unless it is missing or older than 24 hours (in which case it is dropped). -/
def restoreSessionState (st : ChainState) (now : Int) : Bool × ChainState :=
  match st.persisted with
  | none => (false, st)
  | some snap =>
    if now - snap.timestamp > 24 * 60 * 60 * 1000 then
      (false, { st with persisted := none })
    else
      (true, { st with triggerStatus := snap.status, statusChangedAt := snap.changedAt })

/-- One step of the cold-start initialization: record the object's initial
status (`armed` if its arm condition evaluates true, else `idle`) directly
in the status map. -/
def initStep (now : Int) (s : ChainState) (t : ChainedMediaObject) : ChainState :=
  let e := evaluateArmCondition s now t
  { e.2 with
    triggerStatus :=
      insertA e.2.triggerStatus t.id
        (if e.1 then TriggerStatus.armed else TriggerStatus.idle) }

/-- `initializeSession`: reset all per-object state, cancel pending timers,
attempt a snapshot restore, and on a cold start compute each object's
initial status from its arm condition (written directly into the map, not
through `setTriggerStatus`). -/
def initializeSession (st : ChainState) (triggers : List ChainedMediaObject)
    (now : Int) : ChainState :=
  let st0 := clearAllTimers
    { st with triggerStatus := [], statusChangedAt := [], objects := triggers }
  let r := restoreSessionState st0 now
  if r.1 then r.2
  else triggers.foldl (initStep now) r.2

/-- `clearSessionState`: cancel every pending timer, clear both maps and the
object list, and remove the persisted snapshot. -/
def clearSessionState (st : ChainState) : ChainState :=
  { clearAllTimers st with
    triggerStatus := [], statusChangedAt := [], objects := [], persisted := none }

/-! ### Activation coordinator (services/triggers.ts) -/

/-- The tail of a successful `notifyActivation`: add to the active set,
broadcast to the activation observers, and if `resetTimeout ?? 30000` is
positive schedule auto-removal from the active set after it. -/
def finishActivation (s : Sys) (now : Int) (obj : ChainedMediaObject) : Sys :=
  let c := s.coord
  let c := { c with
    activeObjects := insertS c.activeObjects obj.id
    notified := c.notified ++ [obj.id] }
  let timeout := obj.resetTimeout.getD 30000
  let c :=
    if timeout > 0 then
      { c with removalTimers := c.removalTimers ++ [(obj.id, now + timeout)] }
    else c
  { s with coord := c }

/-- `notifyActivation`: the shared gate behind every evaluator.  No-op if the
object is already active; if it carries an arm condition, require chain
status `armed` and a successful `processTriggerActivation`; otherwise
activate. -/
def notifyActivation (s : Sys) (now : Int) (obj : ChainedMediaObject)
    (allObjects : Option (List ChainedMediaObject)) : Sys :=
  if obj.id ∈ s.coord.activeObjects then s
  else
    match obj.armCondition with
    | some _ =>
      if getTriggerStatus s.chain obj.id ≠ TriggerStatus.armed then s
      else
        let r := processTriggerActivation s.chain now obj allObjects
        if r.1 = false then { s with chain := r.2 }
        else finishActivation { s with chain := r.2 } now obj
    | none => finishActivation s now obj

/-- `dismissTrigger`: move the object into the dismissed set and out of the
active set. -/
def dismissTrigger (s : Sys) (objectId : String) : Sys :=
  { s with coord := { s.coord with
      dismissedObjects := insertS s.coord.dismissedObjects objectId
      activeObjects := removeS s.coord.activeObjects objectId } }

/-- `manuallyActivate`: clear the object from the active set, broadcast to
the observers, and re-add it to the active set — no dismissed-set check, no
chain-status check, no auto-removal timer. -/
def manuallyActivate (s : Sys) (obj : ChainedMediaObject) : Sys :=
  { s with coord := { s.coord with
      activeObjects := insertS (removeS s.coord.activeObjects obj.id) obj.id
      notified := s.coord.notified ++ [obj.id] } }

/-- `checkQRTrigger`: fire every active qr object whose declared `code`
parameter or own id equals the scanned string. -/
def checkQRTrigger (s : Sys) (now : Int) (objects : List ChainedMediaObject)
    (scannedCode : String) : Sys :=
  objects.foldl
    (fun s obj =>
      if ¬ obj.active ∨ obj.trigger.type ≠ TriggerKind.qr then s
      else if obj.trigger.params.code = some scannedCode ∨ obj.id = scannedCode then
        notifyActivation s now obj none
      else s)
    s

/-- `checkShakeTrigger`: fire every active shake object whose threshold
(`threshold || 15`) the acceleration magnitude meets.  Note: no
dismissed-set check (only the gps evaluator has one). -/
def checkShakeTrigger (s : Sys) (now : Int) (objects : List ChainedMediaObject)
    (acceleration : Int) : Sys :=
  objects.foldl
    (fun s obj =>
      if ¬ obj.active ∨ obj.trigger.type ≠ TriggerKind.shake then s
      else if acceleration ≥ jsOrNum obj.trigger.params.threshold 15 then
        notifyActivation s now obj none
      else s)
    s

/-- JS `%` (remainder truncated toward zero), as used by `normalizeAngle`. -/
def jsMod (a b : Int) : Int := Int.tmod a b

/-- `Math.abs`. -/
def jsAbs (a : Int) : Int := if a < 0 then -a else a

/-- `normalizeAngle`: `((angle % 360) + 360) % 360`, mapping into [0, 360). -/
def normalizeAngle (angle : Int) : Int := jsMod (jsMod angle 360 + 360) 360

/-- `checkCompassTrigger`: fire every active compass object with
`Math.abs(normalizeAngle(heading - target)) <= tolerance`, target defaulting
`heading || 0`, tolerance `tolerance || 30`. -/
def checkCompassTrigger (s : Sys) (now : Int) (objects : List ChainedMediaObject)
    (heading : Int) : Sys :=
  objects.foldl
    (fun s obj =>
      if ¬ obj.active ∨ obj.trigger.type ≠ TriggerKind.compass then s
      else
        let targetHeading := jsOrNum obj.trigger.params.heading 0
        let tolerance := jsOrNum obj.trigger.params.tolerance 30
        let diff := jsAbs (normalizeAngle (heading - targetHeading))
        if diff ≤ tolerance then notifyActivation s now obj none else s)
    s

/-- One step of `startTimerTriggers` for a single object: skip non-timer or
inactive objects and objects with a pending timer, else schedule
`notifyActivation` after `delay || 5000`. -/
def startTimerStep (now : Int) (s : Sys) (obj : ChainedMediaObject) : Sys :=
  if ¬ obj.active ∨ obj.trigger.type ≠ TriggerKind.timer then s
  else if (lookupA s.coord.timerTimeouts obj.id).isSome then s
  else
    let delay := jsOrNum obj.trigger.params.delay 5000
    { s with coord := { s.coord with
        timerTimeouts := insertA s.coord.timerTimeouts obj.id (now + delay) } }

/-- `startTimerTriggers`: run `startTimerStep` over all objects. -/
def startTimerTriggers (s : Sys) (now : Int)
    (objects : List ChainedMediaObject) : Sys :=
  objects.foldl (startTimerStep now) s

/-- The `setTimeout` callback of a timer trigger firing: notify, then remove
the pending entry.  A cancelled or already-fired timer never runs. -/
def fireTimerTrigger (s : Sys) (now : Int) (obj : ChainedMediaObject) : Sys :=
  if (lookupA s.coord.timerTimeouts obj.id).isSome then
    let s1 := notifyActivation s now obj none
    { s1 with coord := { s1.coord with
        timerTimeouts := eraseA s1.coord.timerTimeouts obj.id } }
  else s

/-- `clearTimerTriggers`. -/
def clearTimerTriggers (s : Sys) : Sys :=
  { s with coord := { s.coord with timerTimeouts := [] } }

/-- `resetAllActivations`: clear both the active and the dismissed set. -/
def resetAllActivations (s : Sys) : Sys :=
  { s with coord := { s.coord with activeObjects := [], dismissedObjects := [] } }

/-! ### Session runs (for whole-session invariants)

A session is a sequence of chain state machine operations: trigger
activations, completions, and pending timers firing. -/

/-- One chain state machine operation. -/
inductive ChainOp where
  | procAct (o : ChainedMediaObject)
      (allTriggers : Option (List ChainedMediaObject)) (now : Int)
  | complete (id : String) (trigger : Option ChainedMediaObject)
      (allTriggers : Option (List ChainedMediaObject)) (now : Int)
  | fire (key : String) (now : Int)

/-- Run one operation. -/
def runOp (st : ChainState) : ChainOp → ChainState
  | .procAct o allTriggers now => (processTriggerActivation st now o allTriggers).2
  | .complete id trigger allTriggers now =>
      completeTrigger st now id trigger allTriggers
  | .fire key now => fireChainTimer st now key

/-- Run a sequence of operations. -/
def runOps (st : ChainState) (ops : List ChainOp) : ChainState :=
  ops.foldl runOp st

/-- An operation is session-wellformed for object list `A` when the objects
it passes in are session objects: activations come from `A` and any
explicitly passed object list is `A` itself (the source call sites pass
either nothing or the session list). -/
def ChainOp.WF (A : List ChainedMediaObject) : ChainOp → Prop
  | .procAct o allTriggers _ => o ∈ A ∧ (allTriggers = none ∨ allTriggers = some A)
  | .complete _ _ allTriggers _ => allTriggers = none ∨ allTriggers = some A
  | .fire _ _ => True

/-- Whether an id counts as satisfied for dependency conditions:
its recorded status is `triggered` or `completed`. -/
def fired (st : ChainState) (id : String) : Bool :=
  match lookupA st.triggerStatus id with
  | some .completed => true
  | some .triggered => true
  | _ => false

/-- The objects a single `updateDependentTriggers` pass over `l` arms when it
runs on base state `st0`: those named `id`, distinct from the transitioned
object `cid`, currently idle, and whose arm condition evaluates true in
`st0`. -/
def ArmsIn (st0 : ChainState) (now : Int) (cid : String)
    (l : List ChainedMediaObject) (id : String) : Prop :=
  ∃ o ∈ l, o.id = id ∧ o.id ≠ cid ∧
    getTriggerStatus st0 o.id = TriggerStatus.idle ∧
    (evaluateArmCondition st0 now o).1 = true

instance (st0 : ChainState) (now : Int) (cid : String)
    (l : List ChainedMediaObject) (id : String) : Decidable (ArmsIn st0 now cid l id) :=
  List.decidableBEx _ l

/-! ### Concrete objects and states used in scenario theorems -/

/-- A minimal touch-kind object. -/
def touchObj (id : String) : ChainedMediaObject :=
  { id := id, trigger := { type := TriggerKind.touch } }

/-- A touch-kind object armed only after `dep` has triggered or completed. -/
def chainTouchObj (id dep : String) : ChainedMediaObject :=
  { id := id, trigger := { type := TriggerKind.touch },
    armCondition := some { type := CondType.afterTrigger, triggerId := some dep } }

/-- A repeatable object with an explicit reset timeout. -/
def repeatObj (id : String) (timeout : Int) : ChainedMediaObject :=
  { id := id, trigger := { type := TriggerKind.touch },
    repeatable := some true, resetTimeout := some timeout }

/-- A shake-kind object with default parameters. -/
def shakeObj (id : String) : ChainedMediaObject :=
  { id := id, trigger := { type := TriggerKind.shake } }

/-- A compass-kind object with explicit target heading and tolerance. -/
def compassObj (id : String) (heading tolerance : Int) : ChainedMediaObject :=
  { id := id,
    trigger :=
      { type := TriggerKind.compass,
        params := { heading := some heading, tolerance := some tolerance } } }

/-- A timer-kind object with an explicit delay. -/
def timerObj (id : String) (delay : Int) : ChainedMediaObject :=
  { id := id,
    trigger := { type := TriggerKind.timer, params := { delay := some delay } } }

/-- A chain state holding exactly the given recorded statuses. -/
def statusState (l : List (String × TriggerStatus)) : ChainState :=
  { triggerStatus := l }

/-- The intermediate state of `completeTrigger` (with the object passed
explicitly) after its own transition — reset scheduling for a repeatable
object, else the direct `completed` transition — and before the dependent
sweep; used to state what the sweep observes. -/
def completeBase (st : ChainState) (now : Int) (o : ChainedMediaObject) : ChainState :=
  if o.repeatable = some true then
    if o.resetTimeout.getD 30000 > 0 then
      scheduleStatusChange st o.id TriggerStatus.armed (o.resetTimeout.getD 30000) now
    else setTriggerStatus st now o.id TriggerStatus.armed
  else setTriggerStatus st now o.id TriggerStatus.completed

/-- Invariant for the unresolvable-dependency argument over a session with
object list `A`: the missing dependency id `depId` is not recorded as
`triggered` or `completed`, every object named `bId` is still `idle`, every
pending timer is an arm re-evaluation or an armed-reset not keyed by `bId`,
and the session object list is `A`. -/
def ReachInv (depId bId : String) (A : List ChainedMediaObject)
    (st : ChainState) : Prop :=
  lookupA st.triggerStatus depId ≠ some TriggerStatus.triggered
  ∧ lookupA st.triggerStatus depId ≠ some TriggerStatus.completed
  ∧ getTriggerStatus st bId = TriggerStatus.idle
  ∧ (∀ p ∈ st.pendingTimers,
      (∃ tid, p.2.action = TimerAction.armEval tid) ∨
      (p.2.action = TimerAction.statusChange TriggerStatus.armed ∧ p.1 ≠ bId))
  ∧ st.objects = A

/-! ### Association-list and set lemmas -/

theorem lookupA_eq_none_of_not_mem_keys {α : Type} (l : List (String × α)) (k : String)
    (h : k ∉ l.map Prod.fst) : lookupA l k = none := by
  induction l with
  | nil => rfl
  | cons p t ih =>
    obtain ⟨a, b⟩ := p
    simp only [List.map_cons, List.mem_cons, not_or] at h
    have ha : ¬ a = k := fun hh => h.1 hh.symm
    simp [lookupA, ha, ih h.2]

theorem lookupA_insertA_self {α : Type} (l : List (String × α)) (k : String) (v : α) :
    lookupA (insertA l k v) k = some v := by
  induction l with
  | nil => simp [insertA, lookupA]
  | cons p t ih =>
    obtain ⟨a, b⟩ := p
    by_cases h : a = k
    · simp [insertA, h, lookupA]
    · simp [insertA, h, lookupA, ih]

theorem lookupA_insertA_ne {α : Type} (l : List (String × α)) (k k0 : String) (v : α)
    (h : k0 ≠ k) : lookupA (insertA l k v) k0 = lookupA l k0 := by
  have hk : ¬ k = k0 := fun hh => h hh.symm
  induction l with
  | nil => simp [insertA, lookupA, hk]
  | cons p t ih =>
    obtain ⟨a, b⟩ := p
    by_cases hp : a = k
    · subst hp
      simp [insertA, lookupA, hk]
    · simp [insertA, hp, lookupA, ih]

theorem mem_insertA {α : Type} (l : List (String × α)) (k : String) (v : α)
    (p : String × α) (h : p ∈ insertA l k v) : p ∈ l ∨ p = (k, v) := by
  induction l with
  | nil => simpa [insertA] using h
  | cons q t ih =>
    by_cases hq : q.1 = k
    · simp only [insertA, hq, if_true, List.mem_cons] at h
      rcases h with h | h
      · right; exact h
      · left; exact List.mem_cons_of_mem _ h
    · simp only [insertA, hq, if_false, List.mem_cons] at h
      rcases h with h | h
      · left; exact h ▸ List.mem_cons_self _ _
      · rcases ih h with h | h
        · left; exact List.mem_cons_of_mem _ h
        · right; exact h

theorem lookupA_eraseA_self_of_nodup {α : Type} (l : List (String × α)) (k : String)
    (hnd : (l.map Prod.fst).Nodup) : lookupA (eraseA l k) k = none := by
  induction l with
  | nil => simp [eraseA, lookupA]
  | cons p t ih =>
    obtain ⟨a, b⟩ := p
    simp only [List.map_cons, List.nodup_cons] at hnd
    by_cases hp : a = k
    · subst hp
      simp only [eraseA, if_pos rfl]
      exact lookupA_eq_none_of_not_mem_keys t a hnd.1
    · simp [eraseA, hp, lookupA, ih hnd.2]

theorem nodupKeys_insertA {α : Type} (l : List (String × α)) (k : String) (v : α)
    (hnd : (l.map Prod.fst).Nodup) : ((insertA l k v).map Prod.fst).Nodup := by
  induction l with
  | nil => simp [insertA]
  | cons p t ih =>
    obtain ⟨a, b⟩ := p
    simp only [List.map_cons, List.nodup_cons] at hnd
    by_cases hp : a = k
    · subst hp
      simpa [insertA] using hnd
    · simp only [insertA, if_neg hp, List.map_cons, List.nodup_cons]
      constructor
      · intro hx
        rcases List.mem_map.mp hx with ⟨q, hq, hq1⟩
        rcases mem_insertA t k v q hq with h | h
        · exact hnd.1 (hq1 ▸ List.mem_map_of_mem Prod.fst h)
        · apply hp
          rw [h] at hq1
          exact hq1.symm
      · exact ih hnd.2

theorem mem_insertS_self (l : List String) (k : String) : k ∈ insertS l k := by
  by_cases h : k ∈ l
  · simp [insertS, h]
  · simp [insertS, h]

/-! ### Basic status lemmas -/

theorem fired_eq_false_iff (st : ChainState) (id : String) :
    fired st id = false ↔
      (lookupA st.triggerStatus id ≠ some TriggerStatus.completed ∧
       lookupA st.triggerStatus id ≠ some TriggerStatus.triggered) := by
  unfold fired
  rcases h : lookupA st.triggerStatus id with _ | s
  · simp
  · cases s <;> simp

theorem getTriggerStatus_eq_idle_iff (st : ChainState) (id : String) :
    getTriggerStatus st id = TriggerStatus.idle ↔
      (lookupA st.triggerStatus id = none ∨
       lookupA st.triggerStatus id = some TriggerStatus.idle) := by
  unfold getTriggerStatus
  rcases h : lookupA st.triggerStatus id with _ | s
  · simp
  · cases s <;> simp

theorem fired_eq_false_of_idle (st : ChainState) (id : String)
    (h : getTriggerStatus st id = TriggerStatus.idle) : fired st id = false := by
  rcases (getTriggerStatus_eq_idle_iff st id).mp h with h | h <;> simp [fired, h]

theorem fired_eq_false_of_armed_lookup (st : ChainState) (id : String)
    (h : lookupA st.triggerStatus id = some TriggerStatus.armed) :
    fired st id = false := by
  simp [fired, h]

theorem lookup_setTriggerStatus_self (st : ChainState) (now : Int) (id : String)
    (s : TriggerStatus) :
    lookupA (setTriggerStatus st now id s).triggerStatus id = some s := by
  unfold setTriggerStatus
  by_cases h : lookupA st.triggerStatus id = some s
  · simp [h]
  · simp [h, lookupA_insertA_self]

theorem getTriggerStatus_set_self (st : ChainState) (now : Int) (id : String)
    (s : TriggerStatus) :
    getTriggerStatus (setTriggerStatus st now id s) id = s := by
  simp [getTriggerStatus, lookup_setTriggerStatus_self]

theorem lookup_setTriggerStatus_ne (st : ChainState) (now : Int) (id id0 : String)
    (s : TriggerStatus) (h : id0 ≠ id) :
    lookupA (setTriggerStatus st now id s).triggerStatus id0 =
      lookupA st.triggerStatus id0 := by
  unfold setTriggerStatus
  by_cases hp : lookupA st.triggerStatus id = some s
  · simp [hp]
  · simp [hp, lookupA_insertA_ne _ _ _ _ h]

theorem getTriggerStatus_set_ne (st : ChainState) (now : Int) (id id0 : String)
    (s : TriggerStatus) (h : id0 ≠ id) :
    getTriggerStatus (setTriggerStatus st now id s) id0 = getTriggerStatus st id0 := by
  simp [getTriggerStatus, lookup_setTriggerStatus_ne _ _ _ _ _ h]

theorem lookup_setTriggerStatus_changedAt_ne (st : ChainState) (now : Int)
    (id id0 : String) (s : TriggerStatus) (h : id0 ≠ id) :
    lookupA (setTriggerStatus st now id s).statusChangedAt id0 =
      lookupA st.statusChangedAt id0 := by
  unfold setTriggerStatus
  by_cases hp : lookupA st.triggerStatus id = some s
  · simp [hp]
  · simp [hp, lookupA_insertA_ne _ _ _ _ h]

theorem setTriggerStatus_pendingTimers (st : ChainState) (now : Int) (id : String)
    (s : TriggerStatus) :
    (setTriggerStatus st now id s).pendingTimers = st.pendingTimers := by
  unfold setTriggerStatus
  by_cases hp : lookupA st.triggerStatus id = some s <;> simp [hp]

theorem setTriggerStatus_objects (st : ChainState) (now : Int) (id : String)
    (s : TriggerStatus) : (setTriggerStatus st now id s).objects = st.objects := by
  unfold setTriggerStatus
  by_cases hp : lookupA st.triggerStatus id = some s <;> simp [hp]

theorem setTriggerStatus_persisted (st : ChainState) (now : Int) (id : String)
    (s : TriggerStatus) : (setTriggerStatus st now id s).persisted = st.persisted := by
  unfold setTriggerStatus
  by_cases hp : lookupA st.triggerStatus id = some s <;> simp [hp]

/-! ### Lemmas about `evaluateArmCondition` -/

theorem fired_eq_decide (st : ChainState) (id : String) :
    fired st id =
      decide (lookupA st.triggerStatus id = some TriggerStatus.completed ∨
              lookupA st.triggerStatus id = some TriggerStatus.triggered) := by
  unfold fired
  rcases h : lookupA st.triggerStatus id with _ | s
  · simp
  · cases s <;> simp

theorem scheduleArm_triggerStatus (st : ChainState) (tid : String) (d now : Int) :
    (scheduleArmEvaluation st tid d now).triggerStatus = st.triggerStatus := by
  unfold scheduleArmEvaluation
  dsimp only
  split <;> rfl

theorem scheduleArm_statusChangedAt (st : ChainState) (tid : String) (d now : Int) :
    (scheduleArmEvaluation st tid d now).statusChangedAt = st.statusChangedAt := by
  unfold scheduleArmEvaluation
  dsimp only
  split <;> rfl

theorem scheduleArm_objects (st : ChainState) (tid : String) (d now : Int) :
    (scheduleArmEvaluation st tid d now).objects = st.objects := by
  unfold scheduleArmEvaluation
  dsimp only
  split <;> rfl

theorem scheduleArm_persisted (st : ChainState) (tid : String) (d now : Int) :
    (scheduleArmEvaluation st tid d now).persisted = st.persisted := by
  unfold scheduleArmEvaluation
  dsimp only
  split <;> rfl

theorem scheduleArm_timers_lookup (st : ChainState) (tid : String) (d now : Int)
    (k : String) (v : PendingTimer) (hk : lookupA st.pendingTimers k = some v) :
    lookupA (scheduleArmEvaluation st tid d now).pendingTimers k = some v := by
  unfold scheduleArmEvaluation
  dsimp only
  split
  · exact hk
  · next hmiss =>
    by_cases hke : k = "arm-" ++ tid
    · subst hke
      rw [hk] at hmiss
      simp at hmiss
    · simpa [lookupA_insertA_ne _ _ _ _ hke] using hk

theorem scheduleArm_timers_mem (st : ChainState) (tid : String) (d now : Int)
    (p : String × PendingTimer)
    (hp : p ∈ (scheduleArmEvaluation st tid d now).pendingTimers) :
    p ∈ st.pendingTimers ∨ p.2.action = TimerAction.armEval tid := by
  unfold scheduleArmEvaluation at hp
  dsimp only at hp
  split at hp
  · left; exact hp
  · rcases mem_insertA _ _ _ _ hp with h | h
    · left; exact h
    · right; rw [h]

theorem evalArm_snd_cases (st : ChainState) (now : Int) (o : ChainedMediaObject) :
    (evaluateArmCondition st now o).2 = st ∨
    ∃ tid d, (evaluateArmCondition st now o).2 = scheduleArmEvaluation st tid d now := by
  unfold evaluateArmCondition
  cases hc : o.armCondition with
  | none => left; rfl
  | some c =>
    obtain ⟨ty, tidO, tidsO, dO⟩ := c
    cases ty
    case never => left; rfl
    case timer => left; rfl
    case allOf => left; rfl
    case anyOf => left; rfl
    case afterTrigger =>
      rcases tidO with _ | tid
      · left; rfl
      · dsimp only
        by_cases he : tid = ""
        · rw [if_pos he]; left; rfl
        · rw [if_neg he]
          by_cases hg : lookupA st.triggerStatus tid ≠ some TriggerStatus.completed ∧
              lookupA st.triggerStatus tid ≠ some TriggerStatus.triggered
          · rw [if_pos hg]; left; rfl
          · rw [if_neg hg]
            rcases dO with _ | d
            · left; rfl
            · dsimp only
              by_cases hd : d ≠ 0
              · rw [if_pos hd]
                by_cases ht : now - (lookupA st.statusChangedAt tid).getD 0 < d
                · rw [if_pos ht]; right; exact ⟨o.id, _, rfl⟩
                · rw [if_neg ht]; left; rfl
              · rw [if_neg hd]; left; rfl

theorem evalArm_snd_triggerStatus (st : ChainState) (now : Int)
    (o : ChainedMediaObject) :
    (evaluateArmCondition st now o).2.triggerStatus = st.triggerStatus := by
  rcases evalArm_snd_cases st now o with h | ⟨tid, d, h⟩ <;> rw [h]
  exact scheduleArm_triggerStatus st tid d now

theorem evalArm_snd_statusChangedAt (st : ChainState) (now : Int)
    (o : ChainedMediaObject) :
    (evaluateArmCondition st now o).2.statusChangedAt = st.statusChangedAt := by
  rcases evalArm_snd_cases st now o with h | ⟨tid, d, h⟩ <;> rw [h]
  exact scheduleArm_statusChangedAt st tid d now

theorem evalArm_snd_objects (st : ChainState) (now : Int) (o : ChainedMediaObject) :
    (evaluateArmCondition st now o).2.objects = st.objects := by
  rcases evalArm_snd_cases st now o with h | ⟨tid, d, h⟩ <;> rw [h]
  exact scheduleArm_objects st tid d now

theorem evalArm_snd_persisted (st : ChainState) (now : Int) (o : ChainedMediaObject) :
    (evaluateArmCondition st now o).2.persisted = st.persisted := by
  rcases evalArm_snd_cases st now o with h | ⟨tid, d, h⟩ <;> rw [h]
  exact scheduleArm_persisted st tid d now

theorem evalArm_snd_timers_lookup (st : ChainState) (now : Int)
    (o : ChainedMediaObject) (k : String) (v : PendingTimer)
    (hk : lookupA st.pendingTimers k = some v) :
    lookupA (evaluateArmCondition st now o).2.pendingTimers k = some v := by
  rcases evalArm_snd_cases st now o with h | ⟨tid, d, h⟩ <;> rw [h]
  · exact hk
  · exact scheduleArm_timers_lookup st tid d now k v hk

theorem evalArm_snd_timers_mem (st : ChainState) (now : Int)
    (o : ChainedMediaObject) (p : String × PendingTimer)
    (hp : p ∈ (evaluateArmCondition st now o).2.pendingTimers) :
    p ∈ st.pendingTimers ∨ ∃ tid, p.2.action = TimerAction.armEval tid := by
  rcases evalArm_snd_cases st now o with h | ⟨tid, d, h⟩ <;> rw [h] at hp
  · left; exact hp
  · rcases scheduleArm_timers_mem st tid d now p hp with h1 | h1
    · left; exact h1
    · right; exact ⟨tid, h1⟩

theorem evalArm_snd_of_true (st : ChainState) (now : Int) (o : ChainedMediaObject)
    (h : (evaluateArmCondition st now o).1 = true) :
    (evaluateArmCondition st now o).2 = st := by
  unfold evaluateArmCondition at h ⊢
  cases hc : o.armCondition with
  | none => rfl
  | some c =>
    rw [hc] at h
    obtain ⟨ty, tidO, tidsO, dO⟩ := c
    cases ty
    case never => rfl
    case timer => rfl
    case allOf => rfl
    case anyOf => rfl
    case afterTrigger =>
      rcases tidO with _ | tid
      · rfl
      · dsimp only at h ⊢
        by_cases he : tid = ""
        · rw [if_pos he]
        · rw [if_neg he] at h ⊢
          by_cases hg : lookupA st.triggerStatus tid ≠ some TriggerStatus.completed ∧
              lookupA st.triggerStatus tid ≠ some TriggerStatus.triggered
          · rw [if_pos hg]
          · rw [if_neg hg] at h ⊢
            rcases dO with _ | d
            · rfl
            · dsimp only at h ⊢
              by_cases hd : d ≠ 0
              · rw [if_pos hd] at h ⊢
                by_cases ht : now - (lookupA st.statusChangedAt tid).getD 0 < d
                · rw [if_pos ht] at h
                  simp at h
                · rw [if_neg ht]
              · rw [if_neg hd]

theorem evalArm_false_of_unfired (st : ChainState) (now : Int)
    (o : ChainedMediaObject) (tid : String) (tidsO : Option (List String))
    (dO : Option Int)
    (hc : o.armCondition = some ⟨CondType.afterTrigger, some tid, tidsO, dO⟩)
    (hne : tid ≠ "") (hf : fired st tid = false) :
    evaluateArmCondition st now o = (false, st) := by
  unfold evaluateArmCondition
  rw [hc]
  dsimp only
  rw [if_neg hne]
  rw [if_pos ((fired_eq_false_iff st tid).mp hf)]

theorem evalArm_fst_congr (st1 st2 : ChainState) (now : Int)
    (o : ChainedMediaObject)
    (h1 : ∀ id, fired st1 id = fired st2 id)
    (h2 : ∀ id, fired st1 id = true →
        lookupA st1.statusChangedAt id = lookupA st2.statusChangedAt id) :
    (evaluateArmCondition st1 now o).1 = (evaluateArmCondition st2 now o).1 := by
  unfold evaluateArmCondition
  cases hc : o.armCondition with
  | none => rfl
  | some c =>
    obtain ⟨ty, tidO, tidsO, dO⟩ := c
    cases ty
    case never => rfl
    case timer => rfl
    case allOf =>
      dsimp only
      congr 1
      funext id
      have := h1 id
      rw [fired_eq_decide, fired_eq_decide] at this
      simpa using this
    case anyOf =>
      dsimp only
      congr 1
      funext id
      have := h1 id
      rw [fired_eq_decide, fired_eq_decide] at this
      simpa using this
    case afterTrigger =>
      rcases tidO with _ | tid
      · rfl
      · dsimp only
        by_cases he : tid = ""
        · rw [if_pos he, if_pos he]
        · rw [if_neg he, if_neg he]
          by_cases hg : lookupA st1.triggerStatus tid ≠ some TriggerStatus.completed ∧
              lookupA st1.triggerStatus tid ≠ some TriggerStatus.triggered
          · have hg2 : lookupA st2.triggerStatus tid ≠ some TriggerStatus.completed ∧
                lookupA st2.triggerStatus tid ≠ some TriggerStatus.triggered := by
              rw [← fired_eq_false_iff] at hg ⊢
              rw [← h1 tid]
              exact hg
            rw [if_pos hg, if_pos hg2]
          · have hf1 : fired st1 tid = true := by
              cases hfc : fired st1 tid
              · exact absurd ((fired_eq_false_iff st1 tid).mp hfc) hg
              · rfl
            have hg2 : ¬ (lookupA st2.triggerStatus tid ≠ some TriggerStatus.completed ∧
                lookupA st2.triggerStatus tid ≠ some TriggerStatus.triggered) := by
              intro hh
              rw [← fired_eq_false_iff, ← h1 tid, hf1] at hh
              exact absurd hh (by simp)
            rw [if_neg hg, if_neg hg2]
            rcases dO with _ | d
            · rfl
            · dsimp only
              by_cases hd : d ≠ 0
              · rw [if_pos hd, if_pos hd, h2 tid hf1]
                by_cases ht : now - (lookupA st2.statusChangedAt tid).getD 0 < d
                · rw [if_pos ht, if_pos ht]
                · rw [if_neg ht, if_neg ht]
              · rw [if_neg hd, if_neg hd]

/-! ### Characterization of the dependent-arming sweep -/

theorem fired_congr_lookup (st1 st2 : ChainState) (id : String)
    (h : lookupA st1.triggerStatus id = lookupA st2.triggerStatus id) :
    fired st1 id = fired st2 id := by
  unfold fired
  rw [h]

theorem lookup_ne_some_armed_of_idle (st : ChainState) (id : String)
    (h : getTriggerStatus st id = TriggerStatus.idle) :
    lookupA st.triggerStatus id ≠ some TriggerStatus.armed := by
  rcases (getTriggerStatus_eq_idle_iff st id).mp h with h | h <;> simp [h]

theorem setTriggerStatus_fields_of_ne (st : ChainState) (now : Int) (id : String)
    (s : TriggerStatus) (h : lookupA st.triggerStatus id ≠ some s) :
    (setTriggerStatus st now id s).triggerStatus = insertA st.triggerStatus id s ∧
    (setTriggerStatus st now id s).statusChangedAt = insertA st.statusChangedAt id now := by
  unfold setTriggerStatus
  rw [if_neg h]
  exact ⟨rfl, rfl⟩

theorem dependentStep_arms (now : Int) (cid : String) (st : ChainState)
    (o : ChainedMediaObject) (h1 : o.id ≠ cid)
    (h2 : getTriggerStatus st o.id = TriggerStatus.idle)
    (h3 : (evaluateArmCondition st now o).1 = true) :
    (dependentStep now cid st o).triggerStatus =
        insertA st.triggerStatus o.id TriggerStatus.armed ∧
    (dependentStep now cid st o).statusChangedAt =
        insertA st.statusChangedAt o.id now := by
  unfold dependentStep
  rw [if_neg h1, if_neg (fun hh => hh h2), if_pos h3, evalArm_snd_of_true st now o h3]
  exact setTriggerStatus_fields_of_ne st now o.id _ (lookup_ne_some_armed_of_idle st o.id h2)

theorem dependentStep_skips (now : Int) (cid : String) (st : ChainState)
    (o : ChainedMediaObject)
    (h : o.id = cid ∨ getTriggerStatus st o.id ≠ TriggerStatus.idle ∨
         (evaluateArmCondition st now o).1 = false) :
    (dependentStep now cid st o).triggerStatus = st.triggerStatus ∧
    (dependentStep now cid st o).statusChangedAt = st.statusChangedAt := by
  unfold dependentStep
  rcases h with h | h | h
  · rw [if_pos h]; exact ⟨rfl, rfl⟩
  · by_cases h1 : o.id = cid
    · rw [if_pos h1]; exact ⟨rfl, rfl⟩
    · rw [if_neg h1, if_pos h]; exact ⟨rfl, rfl⟩
  · by_cases h1 : o.id = cid
    · rw [if_pos h1]; exact ⟨rfl, rfl⟩
    · rw [if_neg h1]
      by_cases h2 : getTriggerStatus st o.id ≠ TriggerStatus.idle
      · rw [if_pos h2]; exact ⟨rfl, rfl⟩
      · rw [if_neg h2]
        dsimp only
        rw [h, if_neg (by simp)]
        exact ⟨evalArm_snd_triggerStatus st now o, evalArm_snd_statusChangedAt st now o⟩

theorem ArmsIn_nil (st0 : ChainState) (now : Int) (cid : String) (id : String) :
    ¬ ArmsIn st0 now cid [] id := by
  rintro ⟨o, ho, _⟩
  exact (List.not_mem_nil o) ho

theorem ArmsIn_cons (st0 : ChainState) (now : Int) (cid : String)
    (o : ChainedMediaObject) (t : List ChainedMediaObject) (id : String) :
    ArmsIn st0 now cid (o :: t) id ↔
      (o.id = id ∧ o.id ≠ cid ∧ getTriggerStatus st0 o.id = TriggerStatus.idle ∧
       (evaluateArmCondition st0 now o).1 = true) ∨ ArmsIn st0 now cid t id := by
  constructor
  · rintro ⟨x, hx, hxp⟩
    rcases List.mem_cons.mp hx with h | h
    · left; rw [← h]; exact hxp
    · right; exact ⟨x, h, hxp⟩
  · rintro (h | ⟨x, hx, hxp⟩)
    · exact ⟨o, List.mem_cons_self o t, h⟩
    · exact ⟨x, List.mem_cons_of_mem o hx, hxp⟩

theorem ArmsIn_cid_false (st0 : ChainState) (now : Int) (cid : String)
    (l : List ChainedMediaObject) : ¬ ArmsIn st0 now cid l cid := by
  rintro ⟨o, _, hid, hne, _⟩
  exact hne hid

theorem udt_go (now : Int) (cid : String) (st0 : ChainState) :
    ∀ (l : List ChainedMediaObject) (st : ChainState) (Q : String → Prop),
      (∀ id, (Q id → lookupA st.triggerStatus id = some TriggerStatus.armed) ∧
             (¬ Q id → lookupA st.triggerStatus id = lookupA st0.triggerStatus id)) →
      (∀ id, Q id → getTriggerStatus st0 id = TriggerStatus.idle) →
      (∀ id, fired st0 id = true →
             lookupA st.statusChangedAt id = lookupA st0.statusChangedAt id) →
      ∀ id,
        ((Q id ∨ ArmsIn st0 now cid l id) →
          lookupA (l.foldl (dependentStep now cid) st).triggerStatus id =
            some TriggerStatus.armed) ∧
        (¬ (Q id ∨ ArmsIn st0 now cid l id) →
          lookupA (l.foldl (dependentStep now cid) st).triggerStatus id =
            lookupA st0.triggerStatus id) := by
  intro l
  induction l with
  | nil =>
    intro st Q ha hQ hc id
    constructor
    · rintro (h | h)
      · simpa using (ha id).1 h
      · exact absurd h (ArmsIn_nil _ _ _ _)
    · intro h
      push_neg at h
      simpa using (ha id).2 h.1
  | cons o t ih =>
    intro st Q ha hQ hc id
    have hfired : ∀ j, fired st j = fired st0 j := by
      intro j
      by_cases hq : Q j
      · rw [fired_eq_false_of_armed_lookup st j ((ha j).1 hq),
            fired_eq_false_of_idle st0 j (hQ j hq)]
      · exact fired_congr_lookup st st0 j ((ha j).2 hq)
    have heval : ∀ x, (evaluateArmCondition st now x).1 =
        (evaluateArmCondition st0 now x).1 :=
      fun x => evalArm_fst_congr st st0 now x hfired
        (fun j hf => hc j (by rw [← hfired j]; exact hf))
    have hgts : ∀ j, ¬ Q j → getTriggerStatus st j = getTriggerStatus st0 j := by
      intro j hq
      unfold getTriggerStatus
      rw [(ha j).2 hq]
    by_cases harm : o.id ≠ cid ∧ getTriggerStatus st o.id = TriggerStatus.idle ∧
        (evaluateArmCondition st now o).1 = true
    · obtain ⟨hcid, hidle, hevT⟩ := harm
      obtain ⟨hts, hca⟩ := dependentStep_arms now cid st o hcid hidle hevT
      have hnQ : ¬ Q o.id := by
        intro hq
        have harmk := (ha o.id).1 hq
        unfold getTriggerStatus at hidle
        rw [harmk] at hidle
        simp at hidle
      have hidle0 : getTriggerStatus st0 o.id = TriggerStatus.idle := by
        rw [← hgts o.id hnQ]; exact hidle
      have hevT0 : (evaluateArmCondition st0 now o).1 = true := by
        rw [← heval o]; exact hevT
      have ha1 : ∀ j,
          ((Q j ∨ (o.id = j ∧ o.id ≠ cid ∧
              getTriggerStatus st0 o.id = TriggerStatus.idle ∧
              (evaluateArmCondition st0 now o).1 = true)) →
            lookupA (dependentStep now cid st o).triggerStatus j =
              some TriggerStatus.armed) ∧
          (¬ (Q j ∨ (o.id = j ∧ o.id ≠ cid ∧
              getTriggerStatus st0 o.id = TriggerStatus.idle ∧
              (evaluateArmCondition st0 now o).1 = true)) →
            lookupA (dependentStep now cid st o).triggerStatus j =
              lookupA st0.triggerStatus j) := by
        intro j
        constructor
        · rintro (hq | ⟨hid, _, _, _⟩)
          · by_cases hj : j = o.id
            · subst hj
              exact absurd hq hnQ
            · rw [hts, lookupA_insertA_ne _ _ _ _ hj]
              exact (ha j).1 hq
          · rw [← hid, hts, lookupA_insertA_self]
        · intro hq1
          have hnq : ¬ Q j := fun hq => hq1 (Or.inl hq)
          by_cases hj : j = o.id
          · exact absurd (Or.inr ⟨hj.symm, hcid, hidle0, hevT0⟩) hq1
          · rw [hts, lookupA_insertA_ne _ _ _ _ hj]
            exact (ha j).2 hnq
      have hQ1 : ∀ j, (Q j ∨ (o.id = j ∧ o.id ≠ cid ∧
          getTriggerStatus st0 o.id = TriggerStatus.idle ∧
          (evaluateArmCondition st0 now o).1 = true)) →
          getTriggerStatus st0 j = TriggerStatus.idle := by
        rintro j (hq | ⟨hid, _, hidle0x, _⟩)
        · exact hQ j hq
        · rw [← hid]; exact hidle0x
      have hc1 : ∀ j, fired st0 j = true →
          lookupA (dependentStep now cid st o).statusChangedAt j =
            lookupA st0.statusChangedAt j := by
        intro j hf
        have hj : j ≠ o.id := by
          intro hh
          rw [hh, fired_eq_false_of_idle st0 o.id hidle0] at hf
          exact absurd hf (by simp)
        rw [hca, lookupA_insertA_ne _ _ _ _ hj]
        exact hc j hf
      have hmain := ih (dependentStep now cid st o) _ ha1 hQ1 hc1 id
      rw [List.foldl_cons]
      constructor
      · rintro (hq | hA)
        · exact hmain.1 (Or.inl (Or.inl hq))
        · rcases (ArmsIn_cons st0 now cid o t id).mp hA with hhead | htail
          · exact hmain.1 (Or.inl (Or.inr hhead))
          · exact hmain.1 (Or.inr htail)
      · intro h
        apply hmain.2
        rintro ((hq | hnew) | hA)
        · exact h (Or.inl hq)
        · exact h (Or.inr ((ArmsIn_cons st0 now cid o t id).mpr (Or.inl hnew)))
        · exact h (Or.inr ((ArmsIn_cons st0 now cid o t id).mpr (Or.inr hA)))
    · have hskip : o.id = cid ∨ getTriggerStatus st o.id ≠ TriggerStatus.idle ∨
          (evaluateArmCondition st now o).1 = false := by
        by_cases h1 : o.id = cid
        · left; exact h1
        · by_cases h2 : getTriggerStatus st o.id = TriggerStatus.idle
          · right; right
            cases hev : (evaluateArmCondition st now o).1
            · rfl
            · exact absurd ⟨h1, h2, hev⟩ harm
          · right; left; exact h2
      obtain ⟨hts, hca⟩ := dependentStep_skips now cid st o hskip
      have ha1 : ∀ j,
          ((Q j ∨ (o.id = j ∧ o.id ≠ cid ∧
              getTriggerStatus st0 o.id = TriggerStatus.idle ∧
              (evaluateArmCondition st0 now o).1 = true)) →
            lookupA (dependentStep now cid st o).triggerStatus j =
              some TriggerStatus.armed) ∧
          (¬ (Q j ∨ (o.id = j ∧ o.id ≠ cid ∧
              getTriggerStatus st0 o.id = TriggerStatus.idle ∧
              (evaluateArmCondition st0 now o).1 = true)) →
            lookupA (dependentStep now cid st o).triggerStatus j =
              lookupA st0.triggerStatus j) := by
        intro j
        constructor
        · rintro (hq | ⟨hid, hcid2, hidle0, hev0⟩)
          · rw [hts]; exact (ha j).1 hq
          · by_cases hq : Q o.id
            · rw [hts, ← hid]
              exact (ha o.id).1 hq
            · exfalso
              apply harm
              refine ⟨hcid2, ?_, ?_⟩
              · rw [hgts o.id hq]; exact hidle0
              · rw [heval o]; exact hev0
        · intro hq1
          rw [hts]
          exact (ha j).2 (fun hq => hq1 (Or.inl hq))
      have hQ1 : ∀ j, (Q j ∨ (o.id = j ∧ o.id ≠ cid ∧
          getTriggerStatus st0 o.id = TriggerStatus.idle ∧
          (evaluateArmCondition st0 now o).1 = true)) →
          getTriggerStatus st0 j = TriggerStatus.idle := by
        rintro j (hq | ⟨hid, _, hidle0x, _⟩)
        · exact hQ j hq
        · rw [← hid]; exact hidle0x
      have hc1 : ∀ j, fired st0 j = true →
          lookupA (dependentStep now cid st o).statusChangedAt j =
            lookupA st0.statusChangedAt j := by
        intro j hf
        rw [hca]
        exact hc j hf
      have hmain := ih (dependentStep now cid st o) _ ha1 hQ1 hc1 id
      rw [List.foldl_cons]
      constructor
      · rintro (hq | hA)
        · exact hmain.1 (Or.inl (Or.inl hq))
        · rcases (ArmsIn_cons st0 now cid o t id).mp hA with hhead | htail
          · exact hmain.1 (Or.inl (Or.inr hhead))
          · exact hmain.1 (Or.inr htail)
      · intro h
        apply hmain.2
        rintro ((hq | hnew) | hA)
        · exact h (Or.inl hq)
        · exact h (Or.inr ((ArmsIn_cons st0 now cid o t id).mpr (Or.inl hnew)))
        · exact h (Or.inr ((ArmsIn_cons st0 now cid o t id).mpr (Or.inr hA)))

/-- Pointwise characterization of `updateDependentTriggers`: an id ends up
`armed` exactly when some listed object arms it (per `ArmsIn`, evaluated in
the sweep's base state), and is untouched otherwise. -/
theorem udt_status_char (st : ChainState) (now : Int) (cid : String)
    (l : List ChainedMediaObject) (id : String) :
    getTriggerStatus (updateDependentTriggers st now cid l) id =
      if ArmsIn st now cid l id then TriggerStatus.armed else getTriggerStatus st id := by
  have h := udt_go now cid st l st (fun _ => False)
    (fun j => ⟨False.elim, fun _ => rfl⟩)
    (fun j hj => hj.elim)
    (fun j _ => rfl) id
  unfold updateDependentTriggers
  by_cases hA : ArmsIn st now cid l id
  · rw [if_pos hA]
    unfold getTriggerStatus
    rw [h.1 (Or.inr hA)]
    rfl
  · rw [if_neg hA]
    unfold getTriggerStatus
    rw [h.2 (by rintro (h | h); exact h; exact hA h)]

theorem dependentStep_objects (now : Int) (cid : String) (st : ChainState)
    (o : ChainedMediaObject) : (dependentStep now cid st o).objects = st.objects := by
  unfold dependentStep
  by_cases h1 : o.id = cid
  · rw [if_pos h1]
  · rw [if_neg h1]
    by_cases h2 : getTriggerStatus st o.id ≠ TriggerStatus.idle
    · rw [if_pos h2]
    · rw [if_neg h2]
      dsimp only
      by_cases h3 : (evaluateArmCondition st now o).1 = true
      · rw [if_pos h3, setTriggerStatus_objects, evalArm_snd_objects]
      · rw [if_neg h3, evalArm_snd_objects]

theorem dependentStep_timers_lookup (now : Int) (cid : String) (st : ChainState)
    (o : ChainedMediaObject) (k : String) (v : PendingTimer)
    (hk : lookupA st.pendingTimers k = some v) :
    lookupA (dependentStep now cid st o).pendingTimers k = some v := by
  unfold dependentStep
  by_cases h1 : o.id = cid
  · rw [if_pos h1]; exact hk
  · rw [if_neg h1]
    by_cases h2 : getTriggerStatus st o.id ≠ TriggerStatus.idle
    · rw [if_pos h2]; exact hk
    · rw [if_neg h2]
      dsimp only
      by_cases h3 : (evaluateArmCondition st now o).1 = true
      · rw [if_pos h3, setTriggerStatus_pendingTimers]
        exact evalArm_snd_timers_lookup st now o k v hk
      · rw [if_neg h3]
        exact evalArm_snd_timers_lookup st now o k v hk

theorem dependentStep_timers_mem (now : Int) (cid : String) (st : ChainState)
    (o : ChainedMediaObject) (p : String × PendingTimer)
    (hp : p ∈ (dependentStep now cid st o).pendingTimers) :
    p ∈ st.pendingTimers ∨ ∃ tid, p.2.action = TimerAction.armEval tid := by
  unfold dependentStep at hp
  by_cases h1 : o.id = cid
  · rw [if_pos h1] at hp; left; exact hp
  · rw [if_neg h1] at hp
    by_cases h2 : getTriggerStatus st o.id ≠ TriggerStatus.idle
    · rw [if_pos h2] at hp; left; exact hp
    · rw [if_neg h2] at hp
      dsimp only at hp
      by_cases h3 : (evaluateArmCondition st now o).1 = true
      · rw [if_pos h3, setTriggerStatus_pendingTimers] at hp
        exact evalArm_snd_timers_mem st now o p hp
      · rw [if_neg h3] at hp
        exact evalArm_snd_timers_mem st now o p hp

theorem udt_objects (st : ChainState) (now : Int) (cid : String)
    (l : List ChainedMediaObject) :
    (updateDependentTriggers st now cid l).objects = st.objects := by
  unfold updateDependentTriggers
  induction l generalizing st with
  | nil => rfl
  | cons o t ih => rw [List.foldl_cons, ih, dependentStep_objects]

theorem udt_timers_lookup (st : ChainState) (now : Int) (cid : String)
    (l : List ChainedMediaObject) (k : String) (v : PendingTimer)
    (hk : lookupA st.pendingTimers k = some v) :
    lookupA (updateDependentTriggers st now cid l).pendingTimers k = some v := by
  unfold updateDependentTriggers
  induction l generalizing st with
  | nil => exact hk
  | cons o t ih =>
    rw [List.foldl_cons]
    exact ih _ (dependentStep_timers_lookup now cid st o k v hk)

theorem udt_timers_mem (st : ChainState) (now : Int) (cid : String)
    (l : List ChainedMediaObject) (p : String × PendingTimer)
    (hp : p ∈ (updateDependentTriggers st now cid l).pendingTimers) :
    p ∈ st.pendingTimers ∨ ∃ tid, p.2.action = TimerAction.armEval tid := by
  unfold updateDependentTriggers at hp
  induction l generalizing st with
  | nil => left; exact hp
  | cons o t ih =>
    rw [List.foldl_cons] at hp
    rcases ih _ hp with h | h
    · exact dependentStep_timers_mem now cid st o p h
    · right; exact h

theorem persist_getTriggerStatus (st : ChainState) (now : Int) (id : String) :
    getTriggerStatus (persistSessionState st now) id = getTriggerStatus st id := rfl

theorem procAct_eq_of_not_armed (st : ChainState) (now : Int)
    (o : ChainedMediaObject) (allTriggers : Option (List ChainedMediaObject))
    (h : getTriggerStatus st o.id ≠ TriggerStatus.armed) :
    processTriggerActivation st now o allTriggers = (false, st) := by
  unfold processTriggerActivation
  rw [if_pos h]

theorem procAct_eq_of_armed (st : ChainState) (now : Int)
    (o : ChainedMediaObject) (objs : List ChainedMediaObject)
    (h : getTriggerStatus st o.id = TriggerStatus.armed) :
    processTriggerActivation st now o (some objs) =
      (true, persistSessionState
        (updateDependentTriggers (setTriggerStatus st now o.id TriggerStatus.triggered)
          now o.id objs) now) := by
  unfold processTriggerActivation
  rw [if_neg (fun hh => hh h)]
  rfl

/-! ### Coordinator lemmas -/

theorem finishActivation_activeObjects (s : Sys) (now : Int)
    (obj : ChainedMediaObject) :
    (finishActivation s now obj).coord.activeObjects =
      insertS s.coord.activeObjects obj.id := by
  unfold finishActivation
  dsimp only
  split <;> rfl

theorem finishActivation_notified (s : Sys) (now : Int)
    (obj : ChainedMediaObject) :
    (finishActivation s now obj).coord.notified = s.coord.notified ++ [obj.id] := by
  unfold finishActivation
  dsimp only
  split <;> rfl

theorem finishActivation_timerTimeouts (s : Sys) (now : Int)
    (obj : ChainedMediaObject) :
    (finishActivation s now obj).coord.timerTimeouts = s.coord.timerTimeouts := by
  unfold finishActivation
  dsimp only
  split <;> rfl

theorem notifyActivation_eq_of_active (s : Sys) (now : Int)
    (obj : ChainedMediaObject) (all : Option (List ChainedMediaObject))
    (h : obj.id ∈ s.coord.activeObjects) :
    notifyActivation s now obj all = s := by
  unfold notifyActivation
  rw [if_pos h]

theorem notifyActivation_eq_of_not_armed (s : Sys) (now : Int)
    (obj : ChainedMediaObject) (all : Option (List ChainedMediaObject))
    (c : ChainCondition) (harm : obj.armCondition = some c)
    (hst : getTriggerStatus s.chain obj.id ≠ TriggerStatus.armed)
    (hact : obj.id ∉ s.coord.activeObjects) :
    notifyActivation s now obj all = s := by
  unfold notifyActivation
  rw [if_neg hact, harm]
  dsimp only
  rw [if_pos hst]

theorem procAct_fst_of_armed (st : ChainState) (now : Int)
    (o : ChainedMediaObject) (allTriggers : Option (List ChainedMediaObject))
    (h : getTriggerStatus st o.id = TriggerStatus.armed) :
    (processTriggerActivation st now o allTriggers).1 = true := by
  unfold processTriggerActivation
  rw [if_neg (fun hh => hh h)]

theorem notifyActivation_eq_of_plain (s : Sys) (now : Int)
    (obj : ChainedMediaObject) (all : Option (List ChainedMediaObject))
    (harm : obj.armCondition = none) (hact : obj.id ∉ s.coord.activeObjects) :
    notifyActivation s now obj all = finishActivation s now obj := by
  unfold notifyActivation
  rw [if_neg hact, harm]

theorem notifyActivation_eq_of_armed (s : Sys) (now : Int)
    (obj : ChainedMediaObject) (all : Option (List ChainedMediaObject))
    (c : ChainCondition) (harm : obj.armCondition = some c)
    (hst : getTriggerStatus s.chain obj.id = TriggerStatus.armed)
    (hact : obj.id ∉ s.coord.activeObjects) :
    notifyActivation s now obj all =
      finishActivation
        { s with chain := (processTriggerActivation s.chain now obj all).2 } now obj := by
  unfold notifyActivation
  rw [if_neg hact, harm]
  dsimp only
  rw [if_neg (fun hh => hh hst)]
  rw [procAct_fst_of_armed s.chain now obj all hst]
  rw [if_neg (by simp)]

/-! ### Claim theorems -/

/-- C1: `processTriggerActivation` returns false and changes nothing unless
the object's current status is exactly `armed`; when it is `armed`, it sets
that object's status to `triggered`, then — observing the post-transition
state — sets to `armed` every other object whose current status is `idle`
and whose arm condition now evaluates true, persists the snapshot, and
returns true. -/
theorem processTriggerActivation_armed_gate_and_sweep (st : ChainState)
    (now : Int) (o : ChainedMediaObject) (objs : List ChainedMediaObject) :
    (getTriggerStatus st o.id ≠ TriggerStatus.armed →
      processTriggerActivation st now o (some objs) = (false, st))
    ∧ (getTriggerStatus st o.id = TriggerStatus.armed →
      (processTriggerActivation st now o (some objs)).1 = true
      ∧ (∀ j, getTriggerStatus (processTriggerActivation st now o (some objs)).2 j =
          if j = o.id then TriggerStatus.triggered
          else if ArmsIn (setTriggerStatus st now o.id TriggerStatus.triggered)
                  now o.id objs j then TriggerStatus.armed
          else getTriggerStatus st j)
      ∧ (processTriggerActivation st now o (some objs)).2.persisted =
          some ⟨(processTriggerActivation st now o (some objs)).2.triggerStatus,
                (processTriggerActivation st now o (some objs)).2.statusChangedAt,
                now⟩) := by
  constructor
  · intro h
    exact procAct_eq_of_not_armed st now o (some objs) h
  · intro h
    rw [procAct_eq_of_armed st now o objs h]
    refine ⟨rfl, ?_, rfl⟩
    intro j
    rw [persist_getTriggerStatus, udt_status_char]
    by_cases hid : j = o.id
    · subst hid
      rw [if_pos rfl,
          if_neg (ArmsIn_cid_false (setTriggerStatus st now o.id TriggerStatus.triggered) now o.id objs),
          getTriggerStatus_set_self]
    · rw [if_neg hid, getTriggerStatus_set_ne st now o.id j _ hid]

/-- Witness for C1: in a two-object scenario with A `armed` and B depending
on A, activating A returns true and arms B; with A `idle`, the call is a
no-op returning false. -/
theorem processTriggerActivation_armed_gate_and_sweep_witness :
    (getTriggerStatus (statusState [("A", TriggerStatus.armed), ("B", TriggerStatus.idle)]) "A" =
        TriggerStatus.armed
      ∧ (processTriggerActivation (statusState [("A", TriggerStatus.armed), ("B", TriggerStatus.idle)])
          0 (touchObj "A") (some [touchObj "A", chainTouchObj "B" "A"])).1 = true
      ∧ getTriggerStatus (processTriggerActivation
          (statusState [("A", TriggerStatus.armed), ("B", TriggerStatus.idle)])
          0 (touchObj "A") (some [touchObj "A", chainTouchObj "B" "A"])).2 "B" =
            TriggerStatus.armed)
    ∧ (getTriggerStatus (statusState [("A", TriggerStatus.idle)]) "A" ≠ TriggerStatus.armed
      ∧ processTriggerActivation (statusState [("A", TriggerStatus.idle)]) 0 (touchObj "A")
          (some [touchObj "A", chainTouchObj "B" "A"]) =
        (false, statusState [("A", TriggerStatus.idle)])) := by
  constructor
  · refine ⟨by decide, ?_, ?_⟩
    · exact ((processTriggerActivation_armed_gate_and_sweep
        (statusState [("A", TriggerStatus.armed), ("B", TriggerStatus.idle)]) 0 (touchObj "A")
        [touchObj "A", chainTouchObj "B" "A"]).2 (by decide)).1
    · have h := ((processTriggerActivation_armed_gate_and_sweep
        (statusState [("A", TriggerStatus.armed), ("B", TriggerStatus.idle)]) 0 (touchObj "A")
        [touchObj "A", chainTouchObj "B" "A"]).2 (by decide)).2.1 "B"
      rw [h]
      decide
  · exact ⟨by decide, (processTriggerActivation_armed_gate_and_sweep
      (statusState [("A", TriggerStatus.idle)]) 0 (touchObj "A")
      [touchObj "A", chainTouchObj "B" "A"]).1 (by decide)⟩

/-- C10: `manuallyActivate` touches only the active set (ending with the
object's id in it) and broadcasts to the observers exactly once; the
dismissed set, the whole chain state, the pending timer-trigger timeouts and
the auto-removal timers are unchanged (so a dismissed object that is
manually re-opened stays in the dismissed set, and no auto-removal is
scheduled). -/
theorem manuallyActivate_frame_spec (s : Sys) (o : ChainedMediaObject) :
    (manuallyActivate s o).coord.activeObjects =
        insertS (removeS s.coord.activeObjects o.id) o.id
    ∧ o.id ∈ (manuallyActivate s o).coord.activeObjects
    ∧ (manuallyActivate s o).coord.notified = s.coord.notified ++ [o.id]
    ∧ (manuallyActivate s o).coord.dismissedObjects = s.coord.dismissedObjects
    ∧ (manuallyActivate s o).chain = s.chain
    ∧ (manuallyActivate s o).coord.timerTimeouts = s.coord.timerTimeouts
    ∧ (manuallyActivate s o).coord.removalTimers = s.coord.removalTimers :=
  ⟨rfl, mem_insertS_self _ _, rfl, rfl, rfl, rfl, rfl⟩

/-- C9: `getTriggerStatus` is total and defaults to `idle` for any id with no
recorded status (also after `clearSessionState`), and an object carrying an
arm condition whose id has no recorded status cannot activate:
`notifyActivation` is a complete no-op on it. -/
theorem getTriggerStatus_default_idle_spec (st : ChainState) (id : String)
    (s : Sys) (now : Int) (o : ChainedMediaObject)
    (all : Option (List ChainedMediaObject)) (c : ChainCondition)
    (hmiss : lookupA st.triggerStatus id = none)
    (harm : o.armCondition = some c)
    (hmiss2 : lookupA s.chain.triggerStatus o.id = none) :
    getTriggerStatus st id = TriggerStatus.idle
    ∧ (∀ j, getTriggerStatus (clearSessionState st) j = TriggerStatus.idle)
    ∧ notifyActivation s now o all = s := by
  refine ⟨?_, ?_, ?_⟩
  · unfold getTriggerStatus
    rw [hmiss]
    rfl
  · intro j
    rfl
  · by_cases hact : o.id ∈ s.coord.activeObjects
    · exact notifyActivation_eq_of_active s now o all hact
    · refine notifyActivation_eq_of_not_armed s now o all c harm ?_ hact
      unfold getTriggerStatus
      rw [hmiss2]
      decide

/-- Witness for C9 on an empty session and a dependent object. -/
theorem getTriggerStatus_default_idle_spec_witness :
    lookupA (statusState []).triggerStatus "ghost" = none
    ∧ getTriggerStatus (statusState []) "ghost" = TriggerStatus.idle
    ∧ notifyActivation {} 0 (chainTouchObj "b" "ghost") none = {} := by
  have h := getTriggerStatus_default_idle_spec (statusState []) "ghost" {} 0
    (chainTouchObj "b" "ghost") none
    { type := CondType.afterTrigger, triggerId := some "ghost" }
    (by decide) rfl (by decide)
  exact ⟨by decide, h.1, h.2.2⟩

/-- C2 (amended): two successive `notifyActivation` calls for the same object
notify the observers at most once — the second call is always a complete
no-op — and exactly once when the object was not already active and either
carries no arm condition or is currently `armed`. -/
theorem notifyActivation_twice_at_most_once (s : Sys) (now1 now2 : Int)
    (o : ChainedMediaObject) (all : Option (List ChainedMediaObject)) :
    notifyActivation (notifyActivation s now1 o all) now2 o all =
        notifyActivation s now1 o all
    ∧ ((notifyActivation s now1 o all).coord.notified = s.coord.notified ∨
       (notifyActivation s now1 o all).coord.notified = s.coord.notified ++ [o.id])
    ∧ (o.id ∉ s.coord.activeObjects →
        (o.armCondition = none ∨ getTriggerStatus s.chain o.id = TriggerStatus.armed) →
        (notifyActivation s now1 o all).coord.notified = s.coord.notified ++ [o.id]) := by
  by_cases hact : o.id ∈ s.coord.activeObjects
  · have h1 : notifyActivation s now1 o all = s :=
      notifyActivation_eq_of_active s now1 o all hact
    rw [h1]
    exact ⟨notifyActivation_eq_of_active s now2 o all hact, Or.inl rfl,
      fun h _ => absurd hact h⟩
  · cases harm : o.armCondition with
    | none =>
      have h1 : notifyActivation s now1 o all = finishActivation s now1 o :=
        notifyActivation_eq_of_plain s now1 o all harm hact
      rw [h1]
      refine ⟨?_, Or.inr (finishActivation_notified s now1 o),
        fun _ _ => finishActivation_notified s now1 o⟩
      refine notifyActivation_eq_of_active _ now2 o all ?_
      rw [finishActivation_activeObjects]
      exact mem_insertS_self _ _
    | some c =>
      by_cases hst : getTriggerStatus s.chain o.id = TriggerStatus.armed
      · have h1 := notifyActivation_eq_of_armed s now1 o all c harm hst hact
        rw [h1]
        refine ⟨?_, Or.inr (finishActivation_notified _ now1 o),
          fun _ _ => finishActivation_notified _ now1 o⟩
        refine notifyActivation_eq_of_active _ now2 o all ?_
        rw [finishActivation_activeObjects]
        exact mem_insertS_self _ _
      · have h1 : notifyActivation s now1 o all = s :=
          notifyActivation_eq_of_not_armed s now1 o all c harm hst hact
        rw [h1]
        refine ⟨notifyActivation_eq_of_not_armed s now2 o all c harm hst hact,
          Or.inl rfl, fun _ hcond => ?_⟩
        rcases hcond with hcond | hcond
        · exact absurd hcond (by simp)
        · exact absurd hcond hst

/-- Witness for C2's amended theorem: a plain object on a fresh coordinator
is notified exactly once across two calls. -/
theorem notifyActivation_twice_at_most_once_witness :
    ("p" ∉ ({} : Sys).coord.activeObjects
      ∧ (touchObj "p").armCondition = none)
    ∧ (notifyActivation {} 0 (touchObj "p") none).coord.notified = ["p"]
    ∧ notifyActivation (notifyActivation {} 0 (touchObj "p") none) 1 (touchObj "p") none =
        notifyActivation {} 0 (touchObj "p") none := by
  have h := notifyActivation_twice_at_most_once {} 0 1 (touchObj "p") none
  refine ⟨⟨by decide, rfl⟩, ?_, h.1⟩
  have h2 := h.2.2 (by decide) (Or.inl rfl)
  rw [h2]
  rfl

/-- Counterexample to C2 as stated: for an object with an unsatisfied arm
condition, two successive `notifyActivation` calls produce zero observer
notifications, not exactly one. -/
theorem notifyActivation_twice_unarmed_never_notifies :
    (notifyActivation (notifyActivation {} 0 (chainTouchObj "b" "x") none) 1
        (chainTouchObj "b" "x") none).coord.notified = [] := by
  decide

/-- C4: the claim is violated by the code — after `dismissTrigger("s")` the
shake evaluator still re-notifies the observers for the dismissed shake
object (only the gps evaluator consults the dismissed set), while
`manuallyActivate` notifies as the claim says. -/
theorem dismissed_shake_still_renotified :
    "s" ∈ (dismissTrigger {} "s").coord.dismissedObjects
    ∧ (checkShakeTrigger (dismissTrigger {} "s") 0 [shakeObj "s"] 20).coord.notified = ["s"]
    ∧ (manuallyActivate (dismissTrigger {} "s") (shakeObj "s")).coord.notified = ["s"] := by
  decide

/-- C5: the claim is violated by the code — the compass evaluator compares
`normalizeAngle(heading - target)` against the tolerance, which handles the
wraparound in one direction only.  Heading 340 with target 350 and tolerance
30 has circular (minimum-arc) distance 10 ≤ 30 yet does not fire, while
heading 355 (clockwise of the target) does. -/
theorem compass_counterclockwise_missed_fire :
    min (normalizeAngle (340 - 350)) (360 - normalizeAngle (340 - 350)) = 10
    ∧ (checkCompassTrigger {} 0 [compassObj "c" 350 30] 340).coord.notified = []
    ∧ (checkCompassTrigger {} 0 [compassObj "c" 350 30] 355).coord.notified = ["c"] := by
  decide

theorem fired_of_lookup_triggered (st : ChainState) (id : String)
    (h : lookupA st.triggerStatus id = some TriggerStatus.triggered) :
    fired st id = true := by
  unfold fired
  rw [h]

theorem evalArm_true_of_fired_afterTrigger (st : ChainState) (now : Int)
    (o : ChainedMediaObject) (tid : String) (tidsO : Option (List String))
    (hc : o.armCondition = some ⟨CondType.afterTrigger, some tid, tidsO, none⟩)
    (hf : fired st tid = true) :
    (evaluateArmCondition st now o).1 = true := by
  unfold evaluateArmCondition
  rw [hc]
  dsimp only
  by_cases he : tid = ""
  · rw [if_pos he]
  · rw [if_neg he]
    rw [if_neg (fun hcontra => by
      rw [(fired_eq_false_iff st tid).mpr hcontra] at hf
      exact absurd hf (by simp))]

/-- C7: the dependent-arming sweep is single-pass and non-transitive — in a
three-object chain A → B → C with A `armed` and B, C `idle`, one
`processTriggerActivation` on A arms B but leaves C `idle`. -/
theorem chain_no_transitive_arming (a b c : String) (now : Int) (st : ChainState)
    (hab : a ≠ b) (hbc : b ≠ c) (hac : a ≠ c) (hbne : b ≠ "")
    (hA : getTriggerStatus st a = TriggerStatus.armed)
    (hB : getTriggerStatus st b = TriggerStatus.idle)
    (hC : getTriggerStatus st c = TriggerStatus.idle) :
    (processTriggerActivation st now (touchObj a)
        (some [touchObj a, chainTouchObj b a, chainTouchObj c b])).1 = true
    ∧ getTriggerStatus (processTriggerActivation st now (touchObj a)
        (some [touchObj a, chainTouchObj b a, chainTouchObj c b])).2 a =
          TriggerStatus.triggered
    ∧ getTriggerStatus (processTriggerActivation st now (touchObj a)
        (some [touchObj a, chainTouchObj b a, chainTouchObj c b])).2 b =
          TriggerStatus.armed
    ∧ getTriggerStatus (processTriggerActivation st now (touchObj a)
        (some [touchObj a, chainTouchObj b a, chainTouchObj c b])).2 c =
          TriggerStatus.idle := by
  have hA' : getTriggerStatus st (touchObj a).id = TriggerStatus.armed := hA
  rw [procAct_eq_of_armed st now (touchObj a)
    [touchObj a, chainTouchObj b a, chainTouchObj c b] hA']
  refine ⟨rfl, ?_, ?_, ?_⟩
  · rw [persist_getTriggerStatus, udt_status_char]
    have hno : ¬ ArmsIn (setTriggerStatus st now (touchObj a).id TriggerStatus.triggered)
        now (touchObj a).id [touchObj a, chainTouchObj b a, chainTouchObj c b] a :=
      ArmsIn_cid_false _ now (touchObj a).id _
    rw [if_neg hno]
    exact getTriggerStatus_set_self st now (touchObj a).id TriggerStatus.triggered
  · rw [persist_getTriggerStatus, udt_status_char]
    have harmsB : ArmsIn
        (setTriggerStatus st now (touchObj a).id TriggerStatus.triggered) now
        (touchObj a).id [touchObj a, chainTouchObj b a, chainTouchObj c b] b := by
      refine ⟨chainTouchObj b a,
        List.mem_cons_of_mem _ (List.mem_cons_self _ _), rfl, Ne.symm hab, ?_, ?_⟩
      · rw [getTriggerStatus_set_ne st now (touchObj a).id (chainTouchObj b a).id
          TriggerStatus.triggered (Ne.symm hab)]
        exact hB
      · exact evalArm_true_of_fired_afterTrigger _ now (chainTouchObj b a) a none rfl
          (fired_of_lookup_triggered _ a
            (lookup_setTriggerStatus_self st now (touchObj a).id TriggerStatus.triggered))
    rw [if_pos harmsB]
  · rw [persist_getTriggerStatus, udt_status_char]
    have hnarm : ¬ ArmsIn
        (setTriggerStatus st now (touchObj a).id TriggerStatus.triggered) now
        (touchObj a).id [touchObj a, chainTouchObj b a, chainTouchObj c b] c := by
      rintro ⟨x, hx, hid, hcid, hidle, hev⟩
      simp only [List.mem_cons, List.not_mem_nil, or_false] at hx
      rcases hx with hx | hx | hx
      · subst hx
        exact hac hid
      · subst hx
        exact hbc hid
      · subst hx
        have hfb : fired (setTriggerStatus st now (touchObj a).id TriggerStatus.triggered)
            b = false := by
          rw [fired_congr_lookup _ st b
            (lookup_setTriggerStatus_ne st now (touchObj a).id b TriggerStatus.triggered
              (Ne.symm hab))]
          exact fired_eq_false_of_idle st b hB
        rw [evalArm_false_of_unfired _ now (chainTouchObj c b) b none none rfl hbne hfb]
          at hev
        exact absurd hev (by simp)
    rw [if_neg hnarm,
      getTriggerStatus_set_ne st now (touchObj a).id c TriggerStatus.triggered (Ne.symm hac)]
    exact hC

/-- Witness for C7 on the concrete chain A → B → C. -/
theorem chain_no_transitive_arming_witness :
    getTriggerStatus (processTriggerActivation
        (statusState [("A", TriggerStatus.armed), ("B", TriggerStatus.idle),
          ("C", TriggerStatus.idle)]) 0 (touchObj "A")
        (some [touchObj "A", chainTouchObj "B" "A", chainTouchObj "C" "B"])).2 "B" =
      TriggerStatus.armed
    ∧ getTriggerStatus (processTriggerActivation
        (statusState [("A", TriggerStatus.armed), ("B", TriggerStatus.idle),
          ("C", TriggerStatus.idle)]) 0 (touchObj "A")
        (some [touchObj "A", chainTouchObj "B" "A", chainTouchObj "C" "B"])).2 "C" =
      TriggerStatus.idle := by
  have h := chain_no_transitive_arming "A" "B" "C" 0
    (statusState [("A", TriggerStatus.armed), ("B", TriggerStatus.idle),
      ("C", TriggerStatus.idle)])
    (by decide) (by decide) (by decide) (by decide) (by decide) (by decide) (by decide)
  exact ⟨h.2.2.1, h.2.2.2⟩

/-! ### Timer-trigger lemmas -/

theorem startTimerTriggers_nil (s : Sys) (now : Int) :
    startTimerTriggers s now [] = s := rfl

theorem startTimerTriggers_cons (s : Sys) (now : Int) (x : ChainedMediaObject)
    (t : List ChainedMediaObject) :
    startTimerTriggers s now (x :: t) =
      startTimerTriggers (startTimerStep now s x) now t := rfl

theorem startTimerStep_skip_kind (now : Int) (s : Sys) (obj : ChainedMediaObject)
    (h : ¬ obj.active = true ∨ obj.trigger.type ≠ TriggerKind.timer) :
    startTimerStep now s obj = s := by
  unfold startTimerStep
  rw [if_pos h]

theorem startTimerStep_skip_pending (now : Int) (s : Sys) (obj : ChainedMediaObject)
    (h : (lookupA s.coord.timerTimeouts obj.id).isSome = true) :
    startTimerStep now s obj = s := by
  unfold startTimerStep
  by_cases h1 : ¬ obj.active = true ∨ obj.trigger.type ≠ TriggerKind.timer
  · rw [if_pos h1]
  · rw [if_neg h1, if_pos h]

theorem startTimerStep_insert (now : Int) (s : Sys) (obj : ChainedMediaObject)
    (h1 : obj.active = true) (h2 : obj.trigger.type = TriggerKind.timer)
    (h3 : lookupA s.coord.timerTimeouts obj.id = none) :
    startTimerStep now s obj =
      { s with coord := { s.coord with
          timerTimeouts := insertA s.coord.timerTimeouts obj.id
            (now + jsOrNum obj.trigger.params.delay 5000) } } := by
  unfold startTimerStep
  rw [if_neg (by simp [h1, h2]), if_neg (by rw [h3]; simp)]

theorem startTimer_isSome_mono (s : Sys) (now : Int) (objs : List ChainedMediaObject)
    (k : String) (h : (lookupA s.coord.timerTimeouts k).isSome = true) :
    (lookupA (startTimerTriggers s now objs).coord.timerTimeouts k).isSome = true := by
  induction objs generalizing s with
  | nil => exact h
  | cons o t ih =>
    rw [startTimerTriggers_cons]
    apply ih
    unfold startTimerStep
    split
    · exact h
    · split
      · exact h
      · dsimp only
        by_cases hk : k = o.id
        · subst hk
          rw [lookupA_insertA_self]
          rfl
        · rw [lookupA_insertA_ne _ _ _ _ hk]
          exact h

theorem startTimer_preserve (s : Sys) (now : Int) (objs : List ChainedMediaObject)
    (k : String) (v : Int) (h : lookupA s.coord.timerTimeouts k = some v) :
    lookupA (startTimerTriggers s now objs).coord.timerTimeouts k = some v := by
  induction objs generalizing s with
  | nil => exact h
  | cons o t ih =>
    rw [startTimerTriggers_cons]
    apply ih
    unfold startTimerStep
    split
    · exact h
    · split
      · exact h
      · next hmiss =>
        dsimp only
        by_cases hk : k = o.id
        · subst hk
          rw [h] at hmiss
          simp at hmiss
        · rw [lookupA_insertA_ne _ _ _ _ hk]
          exact h

theorem startTimer_makes_isSome (s : Sys) (now : Int)
    (objs : List ChainedMediaObject) (x : ChainedMediaObject) (hx : x ∈ objs)
    (ha : x.active = true) (ht : x.trigger.type = TriggerKind.timer) :
    (lookupA (startTimerTriggers s now objs).coord.timerTimeouts x.id).isSome = true := by
  induction objs generalizing s with
  | nil => exact absurd hx (List.not_mem_nil x)
  | cons o t ih =>
    rw [startTimerTriggers_cons]
    rcases List.mem_cons.mp hx with hx1 | hx1
    · subst hx1
      by_cases hsome : (lookupA s.coord.timerTimeouts x.id).isSome = true
      · rw [startTimerStep_skip_pending now s x hsome]
        exact startTimer_isSome_mono s now t x.id hsome
      · have hnone : lookupA s.coord.timerTimeouts x.id = none := by
          rcases hh : lookupA s.coord.timerTimeouts x.id with _ | v
          · rfl
          · rw [hh] at hsome
            simp at hsome
        rw [startTimerStep_insert now s x ha ht hnone]
        apply startTimer_isSome_mono
        rw [lookupA_insertA_self]
        rfl
    · exact ih _ hx1

theorem startTimer_noop (s : Sys) (now : Int) (objs : List ChainedMediaObject)
    (hall : ∀ x ∈ objs, x.active = true → x.trigger.type = TriggerKind.timer →
      (lookupA s.coord.timerTimeouts x.id).isSome = true) :
    startTimerTriggers s now objs = s := by
  induction objs generalizing s with
  | nil => rfl
  | cons o t ih =>
    rw [startTimerTriggers_cons]
    have hstep : startTimerStep now s o = s := by
      by_cases hcond : ¬ o.active = true ∨ o.trigger.type ≠ TriggerKind.timer
      · exact startTimerStep_skip_kind now s o hcond
      · push_neg at hcond
        exact startTimerStep_skip_pending now s o
          (hall o (List.mem_cons_self o t) hcond.1 hcond.2)
    rw [hstep]
    exact ih s (fun x hx => hall x (List.mem_cons_of_mem o hx))

theorem startTimer_entry (now : Int) (o : ChainedMediaObject)
    (ha : o.active = true) (hk : o.trigger.type = TriggerKind.timer) :
    ∀ (objs : List ChainedMediaObject) (s : Sys),
      o ∈ objs →
      lookupA s.coord.timerTimeouts o.id = none →
      (∀ x ∈ objs, x.id = o.id → x = o) →
      lookupA (startTimerTriggers s now objs).coord.timerTimeouts o.id =
        some (now + jsOrNum o.trigger.params.delay 5000) := by
  intro objs
  induction objs with
  | nil =>
    intro s ho
    exact absurd ho (List.not_mem_nil o)
  | cons x t ih =>
    intro s ho hnew huniq
    rw [startTimerTriggers_cons]
    by_cases hxo : x = o
    · subst hxo
      rw [startTimerStep_insert now s x ha hk hnew]
      exact startTimer_preserve _ now t x.id _ (by rw [lookupA_insertA_self])
    · have ho2 : o ∈ t := by
        rcases List.mem_cons.mp ho with h | h
        · exact absurd h.symm hxo
        · exact h
      have hxid : x.id ≠ o.id := fun hh => hxo (huniq x (List.mem_cons_self x t) hh)
      have huniq2 : ∀ y ∈ t, y.id = o.id → y = o :=
        fun y hy hyid => huniq y (List.mem_cons_of_mem x hy) hyid
      have hnew2 : lookupA (startTimerStep now s x).coord.timerTimeouts o.id = none := by
        unfold startTimerStep
        split
        · exact hnew
        · split
          · exact hnew
          · dsimp only
            rw [lookupA_insertA_ne _ _ _ _ (fun hh => hxid hh.symm)]
            exact hnew
      exact ih (startTimerStep now s x) ho2 hnew2 huniq2

theorem startTimer_nodupKeys (s : Sys) (now : Int) (objs : List ChainedMediaObject)
    (hnd : (s.coord.timerTimeouts.map Prod.fst).Nodup) :
    ((startTimerTriggers s now objs).coord.timerTimeouts.map Prod.fst).Nodup := by
  induction objs generalizing s with
  | nil => exact hnd
  | cons o t ih =>
    rw [startTimerTriggers_cons]
    apply ih
    unfold startTimerStep
    split
    · exact hnd
    · split
      · exact hnd
      · exact nodupKeys_insertA _ _ _ hnd

theorem notifyActivation_timerTimeouts (s : Sys) (now : Int)
    (obj : ChainedMediaObject) (all : Option (List ChainedMediaObject)) :
    (notifyActivation s now obj all).coord.timerTimeouts = s.coord.timerTimeouts := by
  unfold notifyActivation
  split
  · rfl
  · split
    · split
      · rfl
      · dsimp only
        split
        · rfl
        · exact finishActivation_timerTimeouts _ now obj
    · exact finishActivation_timerTimeouts _ now obj

theorem fireTimerTrigger_noop (s : Sys) (now : Int) (obj : ChainedMediaObject)
    (h : lookupA s.coord.timerTimeouts obj.id = none) :
    fireTimerTrigger s now obj = s := by
  unfold fireTimerTrigger
  rw [if_neg (by rw [h]; simp)]

/-- C8: timer-trigger start is idempotent per object — starting schedules the
single pending activation `delay || 5000` after `now`, a repeated
`startTimerTriggers` call is a complete no-op, and a fired timer deletes its
entry so it cannot fire a second time. -/
theorem startTimerTriggers_idempotent_spec (s : Sys) (now now2 now3 now4 : Int)
    (objs : List ChainedMediaObject) (o : ChainedMediaObject)
    (ho : o ∈ objs) (ha : o.active = true)
    (hk : o.trigger.type = TriggerKind.timer)
    (hnew : lookupA s.coord.timerTimeouts o.id = none)
    (huniq : ∀ x ∈ objs, x.id = o.id → x = o)
    (hnd : (s.coord.timerTimeouts.map Prod.fst).Nodup) :
    lookupA (startTimerTriggers s now objs).coord.timerTimeouts o.id =
      some (now + jsOrNum o.trigger.params.delay 5000)
    ∧ startTimerTriggers (startTimerTriggers s now objs) now2 objs =
        startTimerTriggers s now objs
    ∧ lookupA (fireTimerTrigger (startTimerTriggers s now objs) now3 o).coord.timerTimeouts
        o.id = none
    ∧ fireTimerTrigger (fireTimerTrigger (startTimerTriggers s now objs) now3 o) now4 o =
        fireTimerTrigger (startTimerTriggers s now objs) now3 o := by
  have h1 := startTimer_entry now o ha hk objs s ho hnew huniq
  have h3 : lookupA (fireTimerTrigger (startTimerTriggers s now objs) now3 o).coord.timerTimeouts
      o.id = none := by
    unfold fireTimerTrigger
    rw [if_pos (by rw [h1]; rfl)]
    dsimp only
    rw [notifyActivation_timerTimeouts]
    exact lookupA_eraseA_self_of_nodup _ _ (startTimer_nodupKeys s now objs hnd)
  refine ⟨h1, ?_, h3, ?_⟩
  · exact startTimer_noop _ now2 objs
      (fun x hx hxa hxt => startTimer_makes_isSome s now objs x hx hxa hxt)
  · exact fireTimerTrigger_noop _ now4 o h3

/-- Witness for C8 on a single timer object with delay 7. -/
theorem startTimerTriggers_idempotent_spec_witness :
    lookupA (startTimerTriggers {} 0 [timerObj "t" 7]).coord.timerTimeouts "t" = some 7
    ∧ startTimerTriggers (startTimerTriggers {} 0 [timerObj "t" 7]) 5 [timerObj "t" 7] =
        startTimerTriggers {} 0 [timerObj "t" 7]
    ∧ lookupA (fireTimerTrigger (startTimerTriggers {} 0 [timerObj "t" 7]) 7
        (timerObj "t" 7)).coord.timerTimeouts "t" = none := by
  have h := startTimerTriggers_idempotent_spec {} 0 5 7 9 [timerObj "t" 7] (timerObj "t" 7)
    (by decide) rfl rfl (by decide) (by decide) (by decide)
  exact ⟨h.1.trans (by decide), h.2.1, h.2.2.1⟩

/-! ### completeTrigger lemmas -/

theorem persist_pendingTimers (st : ChainState) (now : Int) :
    (persistSessionState st now).pendingTimers = st.pendingTimers := rfl

theorem completeBase_status_ne (st : ChainState) (now : Int)
    (o : ChainedMediaObject) (j : String) (hj : j ≠ o.id) :
    getTriggerStatus (completeBase st now o) j = getTriggerStatus st j := by
  unfold completeBase
  split
  · split
    · rfl
    · exact getTriggerStatus_set_ne st now o.id j _ hj
  · exact getTriggerStatus_set_ne st now o.id j _ hj

theorem completeBase_repeat_sched (st : ChainState) (now : Int)
    (o : ChainedMediaObject) (hrep : o.repeatable = some true)
    (htmo : o.resetTimeout.getD 30000 > 0) :
    completeBase st now o =
      scheduleStatusChange st o.id TriggerStatus.armed (o.resetTimeout.getD 30000) now := by
  unfold completeBase
  rw [if_pos hrep, if_pos htmo]

theorem completeBase_repeat_now (st : ChainState) (now : Int)
    (o : ChainedMediaObject) (hrep : o.repeatable = some true)
    (htmo : ¬ o.resetTimeout.getD 30000 > 0) :
    completeBase st now o = setTriggerStatus st now o.id TriggerStatus.armed := by
  unfold completeBase
  rw [if_pos hrep, if_neg htmo]

theorem completeBase_completed (st : ChainState) (now : Int)
    (o : ChainedMediaObject) (hrep : ¬ o.repeatable = some true) :
    completeBase st now o = setTriggerStatus st now o.id TriggerStatus.completed := by
  unfold completeBase
  rw [if_neg hrep]

theorem completeTrigger_eq (st : ChainState) (now : Int) (o : ChainedMediaObject)
    (objs : List ChainedMediaObject)
    (h : getTriggerStatus st o.id = TriggerStatus.triggered) :
    completeTrigger st now o.id (some o) (some objs) =
      persistSessionState
        (updateDependentTriggers (completeBase st now o) now o.id objs) now := by
  unfold completeTrigger completeBase
  rw [if_neg (fun hh => hh h)]
  rfl

theorem fireChainTimer_status_self (st : ChainState) (now : Int) (key : String)
    (t : Int) (s0 : TriggerStatus)
    (h : lookupA st.pendingTimers key = some ⟨t, TimerAction.statusChange s0⟩) :
    getTriggerStatus (fireChainTimer st now key) key = s0 := by
  unfold fireChainTimer
  rw [h]
  dsimp only
  unfold getTriggerStatus persistSessionState
  dsimp only
  rw [lookup_setTriggerStatus_self]
  rfl

/-- C3: `completeTrigger` is a no-op unless the object is `triggered`.  A
repeatable object with positive `resetTimeout ?? 30000` gets exactly one
pending reset timer back to `armed` at `now + timeout` (it stays `triggered`
meanwhile, becomes `armed` when the timer fires, and can then fire again); a
timeout ≤ 0 is applied immediately; a non-repeatable object transitions
directly to `completed`.  In every triggered case the dependent-arming sweep
re-runs (observing the post-transition state `completeBase`) and the
snapshot is persisted. -/
theorem completeTrigger_spec (st : ChainState) (now now2 now3 : Int)
    (o : ChainedMediaObject) (objs : List ChainedMediaObject) :
    (getTriggerStatus st o.id ≠ TriggerStatus.triggered →
      completeTrigger st now o.id (some o) (some objs) = st)
    ∧ (getTriggerStatus st o.id = TriggerStatus.triggered →
        (o.repeatable = some true →
          (o.resetTimeout.getD 30000 > 0 →
            lookupA (completeTrigger st now o.id (some o) (some objs)).pendingTimers o.id =
              some ⟨now + o.resetTimeout.getD 30000,
                    TimerAction.statusChange TriggerStatus.armed⟩
            ∧ getTriggerStatus (completeTrigger st now o.id (some o) (some objs)) o.id =
                TriggerStatus.triggered
            ∧ getTriggerStatus
                (fireChainTimer (completeTrigger st now o.id (some o) (some objs)) now2 o.id)
                o.id = TriggerStatus.armed
            ∧ (processTriggerActivation
                (fireChainTimer (completeTrigger st now o.id (some o) (some objs)) now2 o.id)
                now3 o (some objs)).1 = true)
          ∧ (¬ o.resetTimeout.getD 30000 > 0 →
              getTriggerStatus (completeTrigger st now o.id (some o) (some objs)) o.id =
                TriggerStatus.armed))
        ∧ (¬ o.repeatable = some true →
            getTriggerStatus (completeTrigger st now o.id (some o) (some objs)) o.id =
              TriggerStatus.completed)
        ∧ (∀ j, j ≠ o.id →
            getTriggerStatus (completeTrigger st now o.id (some o) (some objs)) j =
              if ArmsIn (completeBase st now o) now o.id objs j then TriggerStatus.armed
              else getTriggerStatus st j)
        ∧ (completeTrigger st now o.id (some o) (some objs)).persisted =
            some ⟨(completeTrigger st now o.id (some o) (some objs)).triggerStatus,
                  (completeTrigger st now o.id (some o) (some objs)).statusChangedAt,
                  now⟩) := by
  constructor
  · intro h
    unfold completeTrigger
    rw [if_pos h]
  · intro h
    have heq := completeTrigger_eq st now o objs h
    have hcid : ∀ base : ChainState,
        getTriggerStatus (persistSessionState
          (updateDependentTriggers base now o.id objs) now) o.id =
          getTriggerStatus base o.id := by
      intro base
      rw [persist_getTriggerStatus, udt_status_char,
        if_neg (ArmsIn_cid_false base now o.id objs)]
    refine ⟨?_, ?_, ?_, ?_⟩
    · intro hrep
      constructor
      · intro htmo
        have hbase := completeBase_repeat_sched st now o hrep htmo
        have htimer : lookupA
            (completeTrigger st now o.id (some o) (some objs)).pendingTimers o.id =
            some ⟨now + o.resetTimeout.getD 30000,
                  TimerAction.statusChange TriggerStatus.armed⟩ := by
          rw [heq, persist_pendingTimers]
          apply udt_timers_lookup
          rw [hbase]
          unfold scheduleStatusChange
          exact lookupA_insertA_self _ _ _
        have hstatus : getTriggerStatus
            (completeTrigger st now o.id (some o) (some objs)) o.id =
            TriggerStatus.triggered := by
          rw [heq, hcid, hbase]
          exact h
        have hfire : getTriggerStatus
            (fireChainTimer (completeTrigger st now o.id (some o) (some objs)) now2 o.id)
            o.id = TriggerStatus.armed :=
          fireChainTimer_status_self _ now2 o.id _ _ htimer
        exact ⟨htimer, hstatus, hfire, procAct_fst_of_armed _ now3 o (some objs) hfire⟩
      · intro htmo
        rw [heq, hcid, completeBase_repeat_now st now o hrep htmo]
        exact getTriggerStatus_set_self st now o.id TriggerStatus.armed
    · intro hrep
      rw [heq, hcid, completeBase_completed st now o hrep]
      exact getTriggerStatus_set_self st now o.id TriggerStatus.completed
    · intro j hj
      rw [heq, persist_getTriggerStatus, udt_status_char]
      by_cases hA : ArmsIn (completeBase st now o) now o.id objs j
      · rw [if_pos hA, if_pos hA]
      · rw [if_neg hA, if_neg hA]
        exact completeBase_status_ne st now o j hj
    · rw [heq]
      rfl

/-- Witness for C3: a repeatable object with `resetTimeout` 100 gets its
reset timer and re-arms on fire; a non-repeatable object completes; a
non-triggered object is untouched. -/
theorem completeTrigger_spec_witness :
    lookupA (completeTrigger (statusState [("r", TriggerStatus.triggered)]) 0 "r"
        (some (repeatObj "r" 100)) (some [repeatObj "r" 100])).pendingTimers "r" =
      some ⟨100, TimerAction.statusChange TriggerStatus.armed⟩
    ∧ getTriggerStatus
        (fireChainTimer (completeTrigger (statusState [("r", TriggerStatus.triggered)]) 0 "r"
          (some (repeatObj "r" 100)) (some [repeatObj "r" 100])) 100 "r") "r" =
      TriggerStatus.armed
    ∧ getTriggerStatus (completeTrigger (statusState [("n", TriggerStatus.triggered)]) 0 "n"
        (some (touchObj "n")) (some [touchObj "n"])) "n" = TriggerStatus.completed
    ∧ completeTrigger (statusState []) 0 "r" (some (repeatObj "r" 100))
        (some [repeatObj "r" 100]) = statusState [] := by
  have hr := (completeTrigger_spec (statusState [("r", TriggerStatus.triggered)]) 0 100 101
    (repeatObj "r" 100) [repeatObj "r" 100]).2 (by decide)
  have hsched := (hr.1 rfl).1 (by decide)
  have hn := (completeTrigger_spec (statusState [("n", TriggerStatus.triggered)]) 0 1 2
    (touchObj "n") [touchObj "n"]).2 (by decide)
  have hnone := (completeTrigger_spec (statusState []) 0 1 2
    (repeatObj "r" 100) [repeatObj "r" 100]).1 (by decide)
  exact ⟨hsched.1.trans (by decide), hsched.2.2.1, hn.2.1 (by decide), hnone⟩

/-! ### Whole-session invariant for an unresolvable dependency -/

theorem mem_of_lookupA {α : Type} (l : List (String × α)) (k : String) (v : α)
    (h : lookupA l k = some v) : (k, v) ∈ l := by
  induction l with
  | nil => simp [lookupA] at h
  | cons p t ih =>
    obtain ⟨a, b⟩ := p
    by_cases hp : a = k
    · subst hp
      simp [lookupA] at h
      rw [← h]
      exact List.mem_cons_self _ _
    · simp only [lookupA, if_neg hp] at h
      exact List.mem_cons_of_mem _ (ih h)

theorem mem_eraseA_sub {α : Type} (l : List (String × α)) (k : String)
    (p : String × α) (h : p ∈ eraseA l k) : p ∈ l := by
  induction l with
  | nil => simp [eraseA] at h
  | cons q t ih =>
    obtain ⟨a, b⟩ := q
    by_cases ha : a = k
    · simp only [eraseA, if_pos ha] at h
      exact List.mem_cons_of_mem _ h
    · simp only [eraseA, if_neg ha, List.mem_cons] at h
      rcases h with h | h
      · exact h ▸ List.mem_cons_self _ _
      · exact List.mem_cons_of_mem _ (ih h)

theorem lookup_of_triggered (st : ChainState) (tid : String)
    (h : getTriggerStatus st tid = TriggerStatus.triggered) :
    lookupA st.triggerStatus tid = some TriggerStatus.triggered := by
  unfold getTriggerStatus at h
  rcases hl : lookupA st.triggerStatus tid with _ | s
  · rw [hl] at h
    exact absurd h (by decide)
  · rw [hl] at h
    simp only [Option.getD_some] at h
    rw [h]

theorem ReachInv_fired_false (depId bId : String) (A : List ChainedMediaObject)
    (st : ChainState) (h : ReachInv depId bId A st) : fired st depId = false :=
  (fired_eq_false_iff st depId).mpr ⟨h.2.1, h.1⟩

theorem ReachInv_evalArm_bId (depId bId : String) (A : List ChainedMediaObject)
    (st : ChainState) (now : Int) (x : ChainedMediaObject)
    (hne : depId ≠ "") (hx : x ∈ A) (hxid : x.id = bId)
    (hB : ∀ y ∈ A, y.id = bId → ∃ tidso dmo,
        y.armCondition = some ⟨CondType.afterTrigger, some depId, tidso, dmo⟩)
    (hinv : ReachInv depId bId A st) :
    evaluateArmCondition st now x = (false, st) := by
  obtain ⟨tidso, dmo, hc⟩ := hB x hx hxid
  exact evalArm_false_of_unfired st now x depId tidso dmo hc hne
    (ReachInv_fired_false depId bId A st hinv)

theorem ReachInv_persist (depId bId : String) (A : List ChainedMediaObject)
    (st : ChainState) (now : Int) (h : ReachInv depId bId A st) :
    ReachInv depId bId A (persistSessionState st now) := h

theorem ReachInv_eraseTimers (depId bId : String) (A : List ChainedMediaObject)
    (st : ChainState) (k : String) (h : ReachInv depId bId A st) :
    ReachInv depId bId A { st with pendingTimers := eraseA st.pendingTimers k } := by
  obtain ⟨a1, a2, b, c, d⟩ := h
  exact ⟨a1, a2, b, fun p hp => c p (mem_eraseA_sub _ _ _ hp), d⟩

theorem ReachInv_set (depId bId : String) (A : List ChainedMediaObject)
    (st : ChainState) (now : Int) (id : String) (s : TriggerStatus)
    (hinv : ReachInv depId bId A st) (hid : id ≠ bId)
    (hdep1 : id = depId → s ≠ TriggerStatus.triggered ∧ s ≠ TriggerStatus.completed) :
    ReachInv depId bId A (setTriggerStatus st now id s) := by
  obtain ⟨a1, a2, b, c, d⟩ := hinv
  refine ⟨?_, ?_, ?_, ?_, ?_⟩
  · by_cases hd : id = depId
    · rw [← hd, lookup_setTriggerStatus_self]
      intro hh
      exact (hdep1 hd).1 (Option.some_inj.mp hh)
    · rw [lookup_setTriggerStatus_ne st now id depId s (fun hh => hd hh.symm)]
      exact a1
  · by_cases hd : id = depId
    · rw [← hd, lookup_setTriggerStatus_self]
      intro hh
      exact (hdep1 hd).2 (Option.some_inj.mp hh)
    · rw [lookup_setTriggerStatus_ne st now id depId s (fun hh => hd hh.symm)]
      exact a2
  · rw [getTriggerStatus_set_ne st now id bId s (fun hh => hid hh.symm)]
    exact b
  · rw [setTriggerStatus_pendingTimers]
    exact c
  · rw [setTriggerStatus_objects]
    exact d

theorem ReachInv_eval (depId bId : String) (A : List ChainedMediaObject)
    (st : ChainState) (now : Int) (x : ChainedMediaObject)
    (hinv : ReachInv depId bId A st) :
    ReachInv depId bId A (evaluateArmCondition st now x).2 := by
  obtain ⟨a1, a2, b, c, d⟩ := hinv
  refine ⟨?_, ?_, ?_, ?_, ?_⟩
  · rw [evalArm_snd_triggerStatus]
    exact a1
  · rw [evalArm_snd_triggerStatus]
    exact a2
  · unfold getTriggerStatus
    rw [evalArm_snd_triggerStatus]
    exact b
  · intro p hp
    rcases evalArm_snd_timers_mem st now x p hp with h | ⟨tid, h⟩
    · exact c p h
    · exact Or.inl ⟨tid, h⟩
  · rw [evalArm_snd_objects]
    exact d

theorem ReachInv_schedule (depId bId : String) (A : List ChainedMediaObject)
    (st : ChainState) (id : String) (dly now : Int)
    (hinv : ReachInv depId bId A st) (hid : id ≠ bId) :
    ReachInv depId bId A (scheduleStatusChange st id TriggerStatus.armed dly now) := by
  obtain ⟨a1, a2, b, c, d⟩ := hinv
  refine ⟨a1, a2, b, ?_, d⟩
  intro p hp
  unfold scheduleStatusChange at hp
  rcases mem_insertA _ _ _ _ hp with h | h
  · exact c p h
  · right
    rw [h]
    exact ⟨rfl, hid⟩

theorem ReachInv_depStep (depId bId : String) (A : List ChainedMediaObject)
    (st : ChainState) (now : Int) (cid : String) (x : ChainedMediaObject)
    (hne : depId ≠ "")
    (hdep : ∀ y ∈ A, y.id ≠ depId)
    (hB : ∀ y ∈ A, y.id = bId → ∃ tidso dmo,
        y.armCondition = some ⟨CondType.afterTrigger, some depId, tidso, dmo⟩)
    (hx : x ∈ A) (hinv : ReachInv depId bId A st) :
    ReachInv depId bId A (dependentStep now cid st x) := by
  unfold dependentStep
  by_cases h1 : x.id = cid
  · rw [if_pos h1]
    exact hinv
  · rw [if_neg h1]
    by_cases h2 : getTriggerStatus st x.id ≠ TriggerStatus.idle
    · rw [if_pos h2]
      exact hinv
    · rw [if_neg h2]
      dsimp only
      by_cases h3 : (evaluateArmCondition st now x).1 = true
      · rw [if_pos h3, evalArm_snd_of_true st now x h3]
        have hxb : x.id ≠ bId := by
          intro hh
          rw [ReachInv_evalArm_bId depId bId A st now x hne hx hh hB hinv] at h3
          exact absurd h3 (by simp)
        exact ReachInv_set depId bId A st now x.id TriggerStatus.armed hinv hxb
          (fun hh => absurd hh (hdep x hx))
      · rw [if_neg h3]
        exact ReachInv_eval depId bId A st now x hinv

theorem udt_cons (st : ChainState) (now : Int) (cid : String)
    (x : ChainedMediaObject) (t : List ChainedMediaObject) :
    updateDependentTriggers st now cid (x :: t) =
      updateDependentTriggers (dependentStep now cid st x) now cid t := rfl

theorem ReachInv_udt (depId bId : String) (A : List ChainedMediaObject)
    (now : Int) (cid : String)
    (hne : depId ≠ "")
    (hdep : ∀ y ∈ A, y.id ≠ depId)
    (hB : ∀ y ∈ A, y.id = bId → ∃ tidso dmo,
        y.armCondition = some ⟨CondType.afterTrigger, some depId, tidso, dmo⟩) :
    ∀ (l : List ChainedMediaObject) (st : ChainState),
      (∀ y ∈ l, y ∈ A) → ReachInv depId bId A st →
      ReachInv depId bId A (updateDependentTriggers st now cid l) := by
  intro l
  induction l with
  | nil =>
    intro st _ hinv
    exact hinv
  | cons x t ih =>
    intro st hl hinv
    rw [udt_cons]
    exact ih _ (fun y hy => hl y (List.mem_cons_of_mem x hy))
      (ReachInv_depStep depId bId A st now cid x hne hdep hB
        (hl x (List.mem_cons_self x t)) hinv)

theorem ReachInv_procAct (depId bId : String) (A : List ChainedMediaObject)
    (st : ChainState) (now : Int) (o : ChainedMediaObject)
    (allT : Option (List ChainedMediaObject))
    (hne : depId ≠ "")
    (hdep : ∀ y ∈ A, y.id ≠ depId)
    (hB : ∀ y ∈ A, y.id = bId → ∃ tidso dmo,
        y.armCondition = some ⟨CondType.afterTrigger, some depId, tidso, dmo⟩)
    (ho : o ∈ A) (hall : allT = none ∨ allT = some A)
    (hinv : ReachInv depId bId A st) :
    ReachInv depId bId A (processTriggerActivation st now o allT).2 := by
  unfold processTriggerActivation
  by_cases h : getTriggerStatus st o.id ≠ TriggerStatus.armed
  · rw [if_pos h]
    exact hinv
  · rw [if_neg h]
    have harmed : getTriggerStatus st o.id = TriggerStatus.armed := not_not.mp h
    have hob : o.id ≠ bId := by
      intro hh
      rw [hh, hinv.2.2.1] at harmed
      exact absurd harmed (by decide)
    have hlist : allT.getD (setTriggerStatus st now o.id TriggerStatus.triggered).objects
        = A := by
      rcases hall with hA1 | hA1
      · rw [hA1, Option.getD_none, setTriggerStatus_objects]
        exact hinv.2.2.2.2
      · rw [hA1, Option.getD_some]
    dsimp only
    apply ReachInv_persist
    rw [hlist]
    exact ReachInv_udt depId bId A now o.id hne hdep hB A _ (fun y hy => hy)
      (ReachInv_set depId bId A st now o.id TriggerStatus.triggered hinv hob
        (fun hh => absurd hh (hdep o ho)))

theorem ReachInv_complete (depId bId : String) (A : List ChainedMediaObject)
    (st : ChainState) (now : Int) (tid : String)
    (trig : Option ChainedMediaObject) (allT : Option (List ChainedMediaObject))
    (hne : depId ≠ "")
    (hdep : ∀ y ∈ A, y.id ≠ depId)
    (hB : ∀ y ∈ A, y.id = bId → ∃ tidso dmo,
        y.armCondition = some ⟨CondType.afterTrigger, some depId, tidso, dmo⟩)
    (hall : allT = none ∨ allT = some A)
    (hinv : ReachInv depId bId A st) :
    ReachInv depId bId A (completeTrigger st now tid trig allT) := by
  unfold completeTrigger
  by_cases h : getTriggerStatus st tid ≠ TriggerStatus.triggered
  · rw [if_pos h]
    exact hinv
  · rw [if_neg h]
    have htrig : getTriggerStatus st tid = TriggerStatus.triggered := not_not.mp h
    have htb : tid ≠ bId := by
      intro hh
      rw [hh, hinv.2.2.1] at htrig
      exact absurd htrig (by decide)
    have htd : tid ≠ depId := by
      intro hh
      apply hinv.1
      rw [← hh]
      exact lookup_of_triggered st tid htrig
    have hlist : allT.getD st.objects = A := by
      rcases hall with hA1 | hA1
      · rw [hA1, Option.getD_none]
        exact hinv.2.2.2.2
      · rw [hA1, Option.getD_some]
    have hfin : ∀ st1 : ChainState, ReachInv depId bId A st1 →
        ReachInv depId bId A (persistSessionState
          (updateDependentTriggers st1 now tid (allT.getD st.objects)) now) := by
      intro st1 h1
      apply ReachInv_persist
      rw [hlist]
      exact ReachInv_udt depId bId A now tid hne hdep hB A st1 (fun y hy => hy) h1
    dsimp only
    cases trig with
    | some t =>
      dsimp only
      by_cases hrep : t.repeatable = some true
      · rw [if_pos hrep]
        by_cases htm : t.resetTimeout.getD 30000 > 0
        · rw [if_pos htm]
          exact hfin _ (ReachInv_schedule depId bId A st tid _ now hinv htb)
        · rw [if_neg htm]
          exact hfin _ (ReachInv_set depId bId A st now tid TriggerStatus.armed hinv htb
            (fun _ => ⟨by decide, by decide⟩))
      · rw [if_neg hrep]
        exact hfin _ (ReachInv_set depId bId A st now tid TriggerStatus.completed hinv htb
          (fun hh => absurd hh htd))
    | none =>
      dsimp only
      cases hf : st.objects.find? (fun o1 => o1.id = tid) with
      | none =>
        exact hfin _ (ReachInv_set depId bId A st now tid TriggerStatus.completed hinv htb
          (fun hh => absurd hh htd))
      | some t =>
        dsimp only
        by_cases hrep : t.repeatable = some true
        · rw [if_pos hrep]
          by_cases htm : t.resetTimeout.getD 30000 > 0
          · rw [if_pos htm]
            exact hfin _ (ReachInv_schedule depId bId A st tid _ now hinv htb)
          · rw [if_neg htm]
            exact hfin _ (ReachInv_set depId bId A st now tid TriggerStatus.armed hinv htb
              (fun _ => ⟨by decide, by decide⟩))
        · rw [if_neg hrep]
          exact hfin _ (ReachInv_set depId bId A st now tid TriggerStatus.completed hinv htb
            (fun hh => absurd hh htd))

theorem ReachInv_fire (depId bId : String) (A : List ChainedMediaObject)
    (st : ChainState) (now : Int) (key : String)
    (hne : depId ≠ "")
    (hdep : ∀ y ∈ A, y.id ≠ depId)
    (hB : ∀ y ∈ A, y.id = bId → ∃ tidso dmo,
        y.armCondition = some ⟨CondType.afterTrigger, some depId, tidso, dmo⟩)
    (hinv : ReachInv depId bId A st) :
    ReachInv depId bId A (fireChainTimer st now key) := by
  unfold fireChainTimer
  cases hl : lookupA st.pendingTimers key with
  | none => exact hinv
  | some t =>
    obtain ⟨fAt, fAct⟩ := t
    have hmem := mem_of_lookupA _ _ _ hl
    dsimp only
    cases fAct with
    | statusChange s0 =>
      rcases hinv.2.2.2.1 (key, ⟨fAt, TimerAction.statusChange s0⟩) hmem with
        ⟨tid, hb⟩ | ⟨hb1, hb2⟩
      · exact absurd hb (by simp)
      · have hs0 : s0 = TriggerStatus.armed := by
          injection hb1
        subst hs0
        apply ReachInv_persist
        apply ReachInv_eraseTimers
        exact ReachInv_set depId bId A st now key TriggerStatus.armed hinv hb2
          (fun _ => ⟨by decide, by decide⟩)
    | armEval tid =>
      apply ReachInv_eraseTimers
      cases hf : st.objects.find? (fun o1 => o1.id = tid) with
      | none => exact hinv
      | some trigger =>
        dsimp only
        have htrigmem : trigger ∈ A := by
          rw [← hinv.2.2.2.2]
          exact List.mem_of_find?_eq_some hf
        have htrigid : trigger.id = tid :=
          of_decide_eq_true
            (@List.find?_some _ (fun o1 => decide (o1.id = tid)) trigger st.objects hf)
        by_cases hidle : getTriggerStatus st tid = TriggerStatus.idle
        · rw [if_pos hidle]
          by_cases hev : (evaluateArmCondition st now trigger).1 = true
          · rw [if_pos hev, evalArm_snd_of_true st now trigger hev]
            have htid_b : tid ≠ bId := by
              intro hh
              rw [ReachInv_evalArm_bId depId bId A st now trigger hne htrigmem
                (htrigid.trans hh) hB hinv] at hev
              exact absurd hev (by simp)
            apply ReachInv_persist
            exact ReachInv_set depId bId A st now tid TriggerStatus.armed hinv htid_b
              (fun hh => absurd (htrigid.trans hh) (hdep trigger htrigmem))
          · rw [if_neg hev]
            exact ReachInv_eval depId bId A st now trigger hinv
        · rw [if_neg hidle]
          exact hinv

theorem ReachInv_runOps (depId bId : String) (A : List ChainedMediaObject)
    (hne : depId ≠ "")
    (hdep : ∀ y ∈ A, y.id ≠ depId)
    (hB : ∀ y ∈ A, y.id = bId → ∃ tidso dmo,
        y.armCondition = some ⟨CondType.afterTrigger, some depId, tidso, dmo⟩) :
    ∀ (ops : List ChainOp) (st : ChainState),
      (∀ op ∈ ops, op.WF A) → ReachInv depId bId A st →
      ReachInv depId bId A (runOps st ops) := by
  intro ops
  induction ops with
  | nil =>
    intro st _ hinv
    exact hinv
  | cons op t ih =>
    intro st hops hinv
    have hrw : runOps st (op :: t) = runOps (runOp st op) t := rfl
    rw [hrw]
    apply ih _ (fun x hx => hops x (List.mem_cons_of_mem _ hx))
    have hop := hops op (List.mem_cons_self _ _)
    cases op with
    | procAct o allT nw =>
      exact ReachInv_procAct depId bId A st nw o allT hne hdep hB hop.1 hop.2 hinv
    | complete id2 trg allT nw =>
      exact ReachInv_complete depId bId A st nw id2 trg allT hne hdep hB hop hinv
    | fire key nw =>
      exact ReachInv_fire depId bId A st nw key hne hdep hB hinv

theorem ReachInv_initStep (depId bId : String) (A : List ChainedMediaObject)
    (st : ChainState) (now : Int) (x : ChainedMediaObject)
    (hne : depId ≠ "")
    (hdep : ∀ y ∈ A, y.id ≠ depId)
    (hB : ∀ y ∈ A, y.id = bId → ∃ tidso dmo,
        y.armCondition = some ⟨CondType.afterTrigger, some depId, tidso, dmo⟩)
    (hx : x ∈ A) (hinv : ReachInv depId bId A st) :
    ReachInv depId bId A (initStep now st x) := by
  unfold initStep
  obtain ⟨a1, a2, b, c, d⟩ := ReachInv_eval depId bId A st now x hinv
  dsimp only
  refine ⟨?_, ?_, ?_, c, d⟩
  · rw [lookupA_insertA_ne _ _ _ _ (fun hh => (hdep x hx) hh.symm)]
    exact a1
  · rw [lookupA_insertA_ne _ _ _ _ (fun hh => (hdep x hx) hh.symm)]
    exact a2
  · unfold getTriggerStatus
    by_cases hxb : x.id = bId
    · rw [← hxb, lookupA_insertA_self]
      rw [ReachInv_evalArm_bId depId bId A st now x hne hx hxb hB hinv]
      rfl
    · rw [lookupA_insertA_ne _ _ _ _ (fun hh => hxb hh.symm)]
      exact b

theorem ReachInv_initFold (depId bId : String) (A : List ChainedMediaObject)
    (now : Int)
    (hne : depId ≠ "")
    (hdep : ∀ y ∈ A, y.id ≠ depId)
    (hB : ∀ y ∈ A, y.id = bId → ∃ tidso dmo,
        y.armCondition = some ⟨CondType.afterTrigger, some depId, tidso, dmo⟩) :
    ∀ (l : List ChainedMediaObject) (st : ChainState),
      (∀ y ∈ l, y ∈ A) → ReachInv depId bId A st →
      ReachInv depId bId A (l.foldl (initStep now) st) := by
  intro l
  induction l with
  | nil =>
    intro st _ hinv
    exact hinv
  | cons x t ih =>
    intro st hl hinv
    rw [List.foldl_cons]
    exact ih _ (fun y hy => hl y (List.mem_cons_of_mem x hy))
      (ReachInv_initStep depId bId A st now x hne hdep hB
        (hl x (List.mem_cons_self x t)) hinv)

theorem ReachInv_init (depId bId : String) (A : List ChainedMediaObject)
    (now : Int)
    (hne : depId ≠ "")
    (hdep : ∀ y ∈ A, y.id ≠ depId)
    (hB : ∀ y ∈ A, y.id = bId → ∃ tidso dmo,
        y.armCondition = some ⟨CondType.afterTrigger, some depId, tidso, dmo⟩) :
    ReachInv depId bId A (initializeSession {} A now) := by
  have h0 : ReachInv depId bId A
      { triggerStatus := [], statusChangedAt := [], pendingTimers := [],
        objects := A, persisted := none, chainLog := [] } := by
    refine ⟨by simp [lookupA], by simp [lookupA], rfl, ?_, rfl⟩
    intro p hp
    simp at hp
  exact ReachInv_initFold depId bId A now hne hdep hB A _ (fun y hy => hy) h0

/-- C6 (amended): for every object whose `afterTrigger` arm condition names
a non-empty dependency id that appears in no object of the session and is
never assigned a status, `evaluateArmCondition` returns false (it is total,
so it never throws), and the object remains `idle` across the whole session:
after cold initialization and any sequence of activations, completions and
timer firings over the session objects. -/
theorem unresolvable_dependency_stays_idle (depId bId : String)
    (A : List ChainedMediaObject) (ops : List ChainOp)
    (o : ChainedMediaObject) (now0 now1 : Int)
    (hne : depId ≠ "")
    (hdep : ∀ x ∈ A, x.id ≠ depId)
    (hB : ∀ x ∈ A, x.id = bId → ∃ tidso dmo,
        x.armCondition = some ⟨CondType.afterTrigger, some depId, tidso, dmo⟩)
    (hops : ∀ op ∈ ops, op.WF A)
    (ho : o ∈ A) (hoid : o.id = bId) :
    getTriggerStatus (runOps (initializeSession {} A now0) ops) bId =
      TriggerStatus.idle
    ∧ (evaluateArmCondition (runOps (initializeSession {} A now0) ops) now1 o).1 =
      false := by
  have hfinal := ReachInv_runOps depId bId A hne hdep hB ops _ hops
    (ReachInv_init depId bId A now0 hne hdep hB)
  refine ⟨hfinal.2.2.1, ?_⟩
  rw [ReachInv_evalArm_bId depId bId A _ now1 o hne ho hoid hB hfinal]

/-- Witness for C6: a session of one plain object and one object depending
on the absent id ghost; after initialization, activating the plain object
and firing a stray timer key, the dependent object is still idle. -/
theorem unresolvable_dependency_stays_idle_witness :
    getTriggerStatus (runOps
      (initializeSession {} [touchObj "X", chainTouchObj "B" "ghost"] 0)
      [ChainOp.procAct (touchObj "X")
        (some [touchObj "X", chainTouchObj "B" "ghost"]) 1,
       ChainOp.fire "k" 2]) "B" = TriggerStatus.idle
    ∧ (evaluateArmCondition (runOps
      (initializeSession {} [touchObj "X", chainTouchObj "B" "ghost"] 0)
      [ChainOp.procAct (touchObj "X")
        (some [touchObj "X", chainTouchObj "B" "ghost"]) 1,
       ChainOp.fire "k" 2]) 3 (chainTouchObj "B" "ghost")).1 = false := by
  have h := unresolvable_dependency_stays_idle "ghost" "B"
    [touchObj "X", chainTouchObj "B" "ghost"]
    [ChainOp.procAct (touchObj "X")
      (some [touchObj "X", chainTouchObj "B" "ghost"]) 1,
     ChainOp.fire "k" 2]
    (chainTouchObj "B" "ghost") 0 3
    (by decide)
    (by decide)
    (by
      intro x hx hxid
      simp only [List.mem_cons, List.not_mem_nil, or_false] at hx
      rcases hx with hx | hx
      · rw [hx] at hxid
        exact absurd hxid (by decide)
      · rw [hx]
        exact ⟨none, none, rfl⟩)
    (by
      intro op hop
      simp only [List.mem_cons, List.not_mem_nil, or_false] at hop
      rcases hop with hop | hop
      · rw [hop]
        exact ⟨by decide, Or.inr rfl⟩
      · rw [hop]
        exact trivial)
    (by decide)
    rfl
  exact h

/-- Counterexample to C6 as stated: an `afterTrigger` condition naming the
empty-string dependency id — an id that appears in no object and is never
assigned a status — evaluates to true (JS falsiness of the empty string
treats it as no dependency), and session initialization arms the object
instead of leaving it idle. -/
theorem empty_dependency_id_arms :
    (evaluateArmCondition (statusState []) 0 (chainTouchObj "e" "")).1 = true
    ∧ getTriggerStatus (initializeSession {} [chainTouchObj "e" ""] 0) "e" =
      TriggerStatus.armed := by
  decide

end Nystan
